import Mathlib

/-
Formal model of the crossword-data-format parser (src/index.js).

The JavaScript source is translated construct by construct:
* regular expressions become executable backtracking matchers over lists of
  characters, enumerating alternatives in the engine's priority order
  (greedy quantifiers longest-first, alternation left-first), with the
  overall match being the first alternative that consumes the whole input
  for the anchored patterns used by the source;
* JavaScript objects keyed by clue ids become association lists whose key
  order mirrors the JS property order (array-index-like keys ascending,
  then other keys in insertion order);
* JS numbers that can be `undefined` (absent properties) become
  `Option Int` with comparisons against `undefined` evaluating to false;
* a thrown TypeError (e.g. reading a property of `undefined`) is modelled
  by an `Option` result being `none`.
-/

set_option maxRecDepth 40000

/-- Characters matched by the JS regex class backslash-d (ASCII digits). -/
def isDigitCh (c : Char) : Bool := 48 ≤ c.toNat && c.toNat ≤ 57

/-- Characters matched by the JS regex class A-Z. -/
def isUpperCh (c : Char) : Bool := 65 ≤ c.toNat && c.toNat ≤ 90

/-- Characters matched by the JS regex class a-z. -/
def isLowerCh (c : Char) : Bool := 97 ≤ c.toNat && c.toNat ≤ 122

/-- Characters matched by the JS regex class backslash-s (the ASCII part:
space, tab, line feed, vertical tab, form feed, carriage return; the inputs
of interest contain no other Unicode whitespace). -/
def isJsSpace (c : Char) : Bool :=
  c = ' ' || c = '\t' || c = '\n' || c.toNat = 11 || c.toNat = 12 || c = '\r'

/-- Characters matched by the JS regex dot (anything but a line terminator). -/
def isDotCh (c : Char) : Bool :=
  !(c = '\n' || c = '\r' || c.toNat = 8232 || c.toNat = 8233)

/-- The character class written `[,-|]` in the source's answer patterns.
Because `escapedAnswerSeparators` is built with an argument-less
`String.split`, the class body is the three-character text `,-|`, which a
regex engine reads as the RANGE from comma (44) to the vertical bar (124),
not as the three separator characters. -/
def isSepRange (c : Char) : Bool := 44 ≤ c.toNat && c.toNat ≤ 124

/-- Numeric value of a digit string, as JS `parseInt(s, 10)` computes it on
an all-digit string. -/
def digitsToNat (s : List Char) : Nat :=
  s.foldl (fun acc c => acc * 10 + (c.toNat - 48)) 0

/-- Numeric value of an all-digit `String`. -/
def natOfDigits (s : String) : Nat := digitsToNat s.toList

/-- Splits a character list at every occurrence of the given character,
modelling JS `String.prototype.split` with a one-character separator. -/
def splitChAux (sep : Char) : List Char → List Char → List (List Char)
  | [], acc => [acc.reverse]
  | c :: rest, acc =>
    if c = sep then acc.reverse :: splitChAux sep rest []
    else splitChAux sep rest (c :: acc)

/-- JS `s.split(sep)` for a single-character separator. -/
def jsSplitCh (s : String) (sep : Char) : List String :=
  (splitChAux sep s.toList []).map String.mk

/-- JS `text.split("\n")`. -/
def splitLines (text : String) : List String := jsSplitCh text '\n'

/-- JS `String.prototype.trimLeft` restricted to the whitespace the inputs
use. -/
def jsTrimStart (s : String) : String := String.mk (s.toList.dropWhile isJsSpace)

/-- JS `String.prototype.trimRight` restricted to the whitespace the inputs
use. -/
def jsTrimEnd (s : String) : String :=
  String.mk ((s.toList.reverse.dropWhile isJsSpace).reverse)

/-- JS `line.replace(/\#.*/, '')`: removes the first `#` and everything
after it on the line. -/
def stripHashComment (s : String) : String :=
  String.mk (s.toList.takeWhile (fun c => c ≠ '#'))

/-- The comment-stripped, right-trimmed copy of a line that `scanYamlText`
computes (source line 71-72) and then never reads. -/
def tidiedLine (line : String) : String := jsTrimEnd (stripHashComment line)

/-- Decidable check that `needle` is a prefix of `hay`. -/
def hasPre : List Char → List Char → Bool
  | [], _ => true
  | _ :: _, [] => false
  | a :: as, b :: bs => a = b && hasPre as bs

/-- Decidable check that `needle` occurs contiguously inside `hay`. -/
def hasSub (needle : List Char) : List Char → Bool
  | [] => hasPre needle []
  | c :: rest => hasPre needle (c :: rest) || hasSub needle rest

/-- String-level containment test, used to state the "message contains a
marker word" parts of the specification. -/
def strHasSub (hay needle : String) : Bool := hasSub needle.toList hay.toList

/-! ## Backtracking regex matchers

Each matcher returns every way the pattern can match a PREFIX of the input,
as `(consumed, rest)` pairs listed in the priority order of a backtracking
regex engine. The anchored patterns of the source then take the first
alternative whose `rest` is empty. -/

/-- Alternatives of a pattern match: consumed characters paired with the
remaining input, best (engine-preferred) first. -/
abbrev RxRes := List (List Char × List Char)

/-- Matches a literal character sequence. -/
def rxLit (cs : List Char) (s : List Char) : RxRes :=
  if cs.isPrefixOf s then [(cs, s.drop cs.length)] else []

/-- Matches exactly one character of a class. -/
def rxOne (p : Char → Bool) : List Char → RxRes
  | [] => []
  | c :: rest => if p c then [([c], rest)] else []

/-- Greedy `+` over a character class: alternatives from the longest run
down to a single character. -/
def greedyPlus (p : Char → Bool) (s : List Char) : RxRes :=
  let r := s.takeWhile p
  (List.range r.length).map fun k =>
    (r.take (r.length - k), s.drop (r.length - k))

/-- Greedy `*` over a character class: alternatives from the longest run
down to the empty match. -/
def greedyStar (p : Char → Bool) (s : List Char) : RxRes :=
  let r := s.takeWhile p
  (List.range (r.length + 1)).map fun k =>
    (r.take (r.length - k), s.drop (r.length - k))

/-- Sequencing of two pattern matchers, concatenating consumed text. -/
def rxBind (r : RxRes) (f : List Char → RxRes) : RxRes :=
  r.flatMap fun pr => (f pr.2).map fun qr => (pr.1 ++ qr.1, qr.2)

/-- Left-priority alternation. -/
def rxAlt (a b : RxRes) : RxRes := a ++ b

/-- Greedy `*` over an arbitrary sub-pattern. Every iteration of the
source's starred groups consumes at least one character, which the fuel
argument turns into structural termination. -/
def rxStar (body : List Char → RxRes) : Nat → List Char → RxRes
  | 0, s => [([], s)]
  | fuel + 1, s =>
    ((body s).flatMap fun pr =>
      if pr.2.length < s.length then
        (rxStar body fuel pr.2).map fun qr => (pr.1 ++ qr.1, qr.2)
      else []) ++ [([], s)]

/-- One repetition of the id-list pattern: `,` then digits then
`(?:\s*(?:across|down))` — note that the direction suffix group carries no
`?` in the source, so it is required. -/
def idsItem (s : List Char) : RxRes :=
  rxBind (rxLit [','] s) fun s1 =>
  rxBind (greedyPlus isDigitCh s1) fun s2 =>
  rxBind (greedyStar isJsSpace s2) fun s3 =>
  rxAlt (rxLit "across".toList s3) (rxLit "down".toList s3)

/-- The capture of `idsRegexComponent` (without the trailing literal dot):
`\d+(?:,\d+(?:\s*(?:across|down)))*`. -/
def idsGroup (s : List Char) : RxRes :=
  rxBind (greedyPlus isDigitCh s) fun s1 => rxStar idsItem s1.length s1

/-- One answer token: `(?:\d+|[A-Z]+)`. -/
def ansTok (s : List Char) : RxRes :=
  rxAlt (greedyPlus isDigitCh s) (greedyPlus isUpperCh s)

/-- One repetition inside the answer capture: a character of the class
`[,-|]` (a range, see `isSepRange`) followed by a token. -/
def ansItem (s : List Char) : RxRes :=
  rxBind (rxOne isSepRange s) ansTok

/-- The capture of `answerRegexComponent` (without the surrounding literal
parentheses). -/
def ansGroup (s : List Char) : RxRes :=
  rxBind (ansTok s) fun s1 => rxStar ansItem s1.length s1

/-- The five captures of `clueRegex`. -/
structure ClueCaps where
  acrossText : String
  downText : String
  idsText : String
  bodyText : String
  answerText : String
deriving DecidableEq

/-- All the ways `clueRegex` (components joined by `\s+`) can match a
prefix of the input, with captures, in engine priority order. -/
def clueLineAlts (s : List Char) : List (ClueCaps × List Char) :=
  (rxLit ['-'] s).flatMap fun p1 =>
  (greedyPlus isJsSpace p1.2).flatMap fun p2 =>
  (rxLit ['('] p2.2).flatMap fun p3 =>
  (greedyPlus isDigitCh p3.2).flatMap fun pa =>
  (rxLit [','] pa.2).flatMap fun p4 =>
  (greedyPlus isDigitCh p4.2).flatMap fun pd =>
  (rxLit [')'] pd.2).flatMap fun p5 =>
  (greedyPlus isJsSpace p5.2).flatMap fun p6 =>
  (idsGroup p6.2).flatMap fun pids =>
  (rxLit ['.'] pids.2).flatMap fun p7 =>
  (greedyPlus isJsSpace p7.2).flatMap fun p8 =>
  (greedyPlus isDotCh p8.2).flatMap fun pbody =>
  (greedyPlus isJsSpace pbody.2).flatMap fun p9 =>
  (rxLit ['('] p9.2).flatMap fun p10 =>
  (ansGroup p10.2).flatMap fun pans =>
  (rxLit [')'] pans.2).map fun p11 =>
  ({ acrossText := String.mk pa.1, downText := String.mk pd.1,
     idsText := String.mk pids.1, bodyText := String.mk pbody.1,
     answerText := String.mk pans.1 }, p11.2)

/-- JS `clueText.match(clueRegex)`: the pattern is anchored at both ends,
so the match is the first alternative consuming the entire line. -/
def clueLineMatch (line : String) : Option ClueCaps :=
  (((clueLineAlts line.toList).filter fun r => r.2.isEmpty).head?).map (·.1)

/-- JS `sizeText.match(sizeRegex)` with `sizeRegex = /^(\d+)x(\d+)$/`:
returns the two digit-run captures. The pattern is deterministic (a digit
run cannot extend past the `x`). -/
def sizeMatch (s : String) : Option (String × String) :=
  let cs := s.toList
  let a := cs.takeWhile isDigitCh
  if a.length = 0 then none
  else
    match cs.drop a.length with
    | 'x' :: r2 =>
      let b := r2.takeWhile isDigitCh
      if 0 < b.length ∧ r2.length = b.length then
        some (String.mk a, String.mk b)
      else none
    | _ => none

/-- JS `bodyText.match(bodyBelongsToRegex)` with the pattern
`^See (\d+)\s([aA]cross|[dD]own)$`: returns the id capture and the raw
direction capture. Deterministic: the digit run is delimited by the
single required whitespace character. -/
def belongsToMatch (s : String) : Option (String × String) :=
  let cs := s.toList
  if ("See ".toList).isPrefixOf cs then
    let r0 := cs.drop 4
    let ds := r0.takeWhile isDigitCh
    if ds.length = 0 then none
    else
      match r0.drop ds.length with
      | w :: rest =>
        if isJsSpace w then
          if rest = "across".toList ∨ rest = "Across".toList ∨
             rest = "down".toList ∨ rest = "Down".toList then
            some (String.mk ds, String.mk rest)
          else none
        else none
      | [] => none
  else none

/-- JS `line.match(/^([a-z]+):(.*)$/)`: the key is the leading lower-case
run, which must be non-empty and immediately followed by a colon; the value
is the rest of the line (which, as `(.*)$`, may not contain a line
terminator). -/
def keyValueMatch (line : String) : Option (String × String) :=
  let cs := line.toList
  let k := cs.takeWhile isLowerCh
  if k.length = 0 then none
  else
    match cs.drop k.length with
    | ':' :: rest =>
      if rest.all isDotCh then some (String.mk k, String.mk rest) else none
    | _ => none

/-- JS `line.match(/^(\- .+)$/)`: a dash, a space, then at least one
non-terminator character; the capture is the entire line. -/
def listItemMatch (line : String) : Option String :=
  match line.toList with
  | '-' :: ' ' :: rest =>
    if rest.length ≠ 0 ∧ rest.all isDotCh then some line else none
  | _ => none

/-- JS `idsText.split(/\D+/)[0]` for a string that starts with a digit:
the leading digit run (and the empty string otherwise, as JS produces). -/
def splitNonDigitsHead (s : String) : String :=
  String.mk (s.toList.takeWhile isDigitCh)

/-! ## Data model

Clue records mirror the JS objects field by field. Fields that a JS object
only receives in a later stage carry defaults here; every read in the
translated code happens after the corresponding write, exactly as in the
source. `part.length` is called `len` to avoid clashing with list length
in statements. -/

/-- Insertion into a sorted list of naturals. -/
def insNat (n : Nat) : List Nat → List Nat
  | [] => [n]
  | m :: ms => if n ≤ m then n :: m :: ms else m :: insNat n ms

/-- Ascending numeric sort, the result of JS `.sort((a,b) => a-b)` on an
array of numbers. -/
def sortNat : List Nat → List Nat
  | [] => []
  | n :: ns => insNat n (sortNat ns)

/-- Start coordinates of a clue. -/
structure Coords where
  across : Nat
  down : Nat
deriving DecidableEq

/-- The raw captured fragments stored on each clue (source lines 174-180). -/
structure RawClue where
  idsText : String
  bodyText : String
  answerText : String
  clueText : String
  clueTextSequenceId : Nat
deriving DecidableEq

/-- A resolved belongs-to reference; `partsSequence` is attached during
length reconciliation. -/
structure BelongsTo where
  id : String
  direction : String
  partsSequence : Option (List Nat) := none
deriving DecidableEq

/-- One answer part (source lines 313-340): raw token, separator to the
previous part, position, display text, placeholder flag, length (`len`),
and — after reconciliation — the owning clue back-reference (`clueRef`,
the JS `part.clue`). -/
structure APart where
  wordOrNumber : String
  separator : Option Char := none
  sequence : Nat := 0
  text : String := ""
  placeholder : Bool := false
  len : Nat := 0
  clueRef : Option (String × String) := none
deriving DecidableEq

/-- A clue's answer. `length` and `lengthOwned` are JS numbers that are
absent (`undefined`) until assigned, hence `Option Int`. -/
structure Answer where
  parts : List APart := []
  length : Option Int := none
  lengthOwned : Option Int := none
deriving DecidableEq

/-- A clue record. -/
structure Clue where
  id : String
  direction : String
  coords : Coords
  raw : RawClue
  belongsTo : Option BelongsTo := none
  owns : List (String × String) := []
  answer : Answer := {}
deriving DecidableEq

/-- The per-id pair of directional clues (`clues[id] = {across?, down?}`).
The across list is always processed before the down list, so for every id
the `across` key precedes the `down` key in JS property order; key
iteration below follows that order. -/
structure CluePair where
  across : Option Clue := none
  down : Option Clue := none
deriving DecidableEq

/-- The clue map, an association list in JS property order. -/
abbrev CluesMap := List (String × CluePair)

/-- Whether a string is an array-index-like JS property key (canonical
decimal, below 2^32 - 1); such keys are kept in ascending numeric order
ahead of all other keys. -/
def isArrIdxKey (s : String) : Bool :=
  s.length ≠ 0 && s.toList.all isDigitCh &&
    (s = "0" || s.toList.head? ≠ some '0') && natOfDigits s < 4294967295

/-- Inserts a fresh array-index-like key at its numeric position. -/
def objInsNum {α : Type} : List (String × α) → String → α → List (String × α)
  | [], k, v => [(k, v)]
  | (k0, v0) :: rest, k, v =>
    if isArrIdxKey k0 && decide (natOfDigits k0 < natOfDigits k) then
      (k0, v0) :: objInsNum rest k v
    else (k, v) :: (k0, v0) :: rest

/-- JS property write `obj[k] = v`: updates in place if the key exists,
otherwise inserts according to JS property order. -/
def objSet {α : Type} (m : List (String × α)) (k : String) (v : α) :
    List (String × α) :=
  if m.any (·.1 = k) then m.map fun p => if p.1 = k then (k, v) else p
  else if isArrIdxKey k then objInsNum m k v
  else m ++ [(k, v)]

/-- JS `obj.hasOwnProperty(k)` on the clue map. -/
def mapHas (m : CluesMap) (k : String) : Bool := m.any (·.1 = k)

/-- First-match association lookup (JS property read). -/
def assocGet {α : Type} : List (String × α) → String → Option α
  | [], _ => none
  | (k0, v0) :: rest, k => if k0 = k then some v0 else assocGet rest k

/-- JS property read `obj[k]` on the clue map. -/
def mapGet (m : CluesMap) (k : String) : Option CluePair := assocGet m k

/-- JS property read `clues[id][direction]`; a direction key other than the
two literals is never present on a pair. -/
def pairGet (p : CluePair) (dir : String) : Option Clue :=
  if dir = "across" then p.across else if dir = "down" then p.down else none

/-- JS property write `clues[id][direction] = clue`; call sites only ever
use the two direction literals. -/
def pairSet (p : CluePair) (dir : String) (c : Clue) : CluePair :=
  if dir = "across" then { p with across := some c }
  else if dir = "down" then { p with down := some c }
  else p

/-- JS `clues[id].hasOwnProperty(direction)`. -/
def pairHasKey (p : CluePair) (dir : String) : Bool := (pairGet p dir).isSome

/-- JS `Object.keys(clues[id])`, across before down (see `CluePair`). -/
def pairKeys (p : CluePair) : List String :=
  (if p.across.isSome then ["across"] else []) ++
  (if p.down.isSome then ["down"] else [])

/-- The (id, direction) iteration sequence of the nested
`Object.keys(clues).forEach / Object.keys(clues[id]).forEach` loops. -/
def snapshotKeys (m : CluesMap) : List (String × String) :=
  m.flatMap fun e => (pairKeys e.2).map fun d => (e.1, d)

/-- Convenience: `clues[id][direction]` in one step. -/
def lookupClue (m : CluesMap) (key : String × String) : Option Clue :=
  (mapGet m key.1).bind fun p => pairGet p key.2

/-- Writes a clue back at `(id, direction)`. -/
def storeClue (m : CluesMap) (key : String × String) (c : Clue) : CluesMap :=
  objSet m key.1 (pairSet ((mapGet m key.1).getD {}) key.2 c)

/-! ## Header scanner (`scanYamlText`, source lines 65-114) -/

/-- A single-quote character, written via its code so that source error
messages can be reproduced verbatim. -/
def sqc : String := String.singleton (Char.ofNat 39)

/-- The value type of a permitted header key. -/
inductive KeyKind
  | str
  | list
deriving DecidableEq

/-- The `permittedKeys` table (source lines 3-14). -/
def permittedKeyKind (k : String) : Option KeyKind :=
  if k = "version" ∨ k = "name" ∨ k = "author" ∨ k = "editor" ∨
     k = "copyright" ∨ k = "publisher" ∨ k = "pubdate" ∨ k = "size" then
    some .str
  else if k = "across" ∨ k = "down" then some .list
  else none

/-- Declaration order of the permitted keys, the order `Object.keys`
yields for the `permittedKeys` object. -/
def permittedKeysOrder : List String :=
  ["version", "name", "author", "editor", "copyright", "publisher",
   "pubdate", "size", "across", "down"]

/-- The `foundItems` object: one optional slot per permitted key. -/
structure FoundItems where
  version : Option String := none
  name : Option String := none
  author : Option String := none
  editor : Option String := none
  copyright : Option String := none
  publisher : Option String := none
  pubdate : Option String := none
  size : Option String := none
  across : Option (List String) := none
  down : Option (List String) := none
deriving DecidableEq

/-- JS `foundItems.hasOwnProperty(key)`. -/
def fiHas (f : FoundItems) (k : String) : Bool :=
  if k = "version" then f.version.isSome
  else if k = "name" then f.name.isSome
  else if k = "author" then f.author.isSome
  else if k = "editor" then f.editor.isSome
  else if k = "copyright" then f.copyright.isSome
  else if k = "publisher" then f.publisher.isSome
  else if k = "pubdate" then f.pubdate.isSome
  else if k = "size" then f.size.isSome
  else if k = "across" then f.across.isSome
  else if k = "down" then f.down.isSome
  else false

/-- JS `foundItems[key] = value` for a scalar key. -/
def fiSetStr (f : FoundItems) (k v : String) : FoundItems :=
  if k = "version" then { f with version := some v }
  else if k = "name" then { f with name := some v }
  else if k = "author" then { f with author := some v }
  else if k = "editor" then { f with editor := some v }
  else if k = "copyright" then { f with copyright := some v }
  else if k = "publisher" then { f with publisher := some v }
  else if k = "pubdate" then { f with pubdate := some v }
  else if k = "size" then { f with size := some v }
  else f

/-- JS `foundItems[key] = currentList` with a fresh empty list. -/
def fiOpenList (f : FoundItems) (k : String) : FoundItems :=
  if k = "across" then { f with across := some [] }
  else if k = "down" then { f with down := some [] }
  else f

/-- JS `currentList.push(item)` where `currentList` aliases
`foundItems[k]`. -/
def fiSnoc (f : FoundItems) (k : String) (item : String) : FoundItems :=
  if k = "across" then { f with across := some ((f.across.getD []) ++ [item]) }
  else if k = "down" then { f with down := some ((f.down.getD []) ++ [item]) }
  else f

/-- Scanner state: partial field map, the currently open list key (JS
`inList`/`currentList`), and the error list. -/
structure ScanSt where
  found : FoundItems := {}
  inList : Option String := none
  errors : List String := []
deriving DecidableEq

/-- Message for a duplicated header key. -/
def scanDupMsg (key : String) (i : Nat) (line : String) : String :=
  "duplicate key, " ++ key ++ ", found in line[" ++ Nat.repr i ++ "]=" ++
    sqc ++ line ++ sqc

/-- Message for inline text after a list key. -/
def scanListValMsg (i : Nat) (line : String) : String :=
  "unexpected text found after list key in line[" ++ Nat.repr i ++ "]=" ++
    sqc ++ line ++ sqc

/-- Message for an unrecognised header key. -/
def scanUnrecMsg (key : String) (i : Nat) (line : String) : String :=
  "unrecognised key, " ++ sqc ++ key ++ sqc ++ ", in line[" ++ Nat.repr i ++
    "]=" ++ sqc ++ line ++ sqc

/-- Message for an unparsable list item line. -/
def scanListItemMsg (i : Nat) (line : String) : String :=
  "could not parse as list item: line[" ++ Nat.repr i ++ "]=" ++
    sqc ++ line ++ sqc

/-- Message for a line that is neither a key line nor a list item. -/
def scanNoKeyMsg (i : Nat) (line : String) : String :=
  "no key specified and cannot be a list item, in line[" ++ Nat.repr i ++
    "]=" ++ sqc ++ line ++ sqc

/-- Comma-space join, JS `missingKeys.join(', ')`. -/
def joinCommaSpace : List String → String
  | [] => ""
  | [s] => s
  | s :: rest => s ++ ", " ++ joinCommaSpace rest

/-- Message aggregating the missing header keys. -/
def missingKeysMsg (missing : List String) : String :=
  "missing keys: " ++ joinCommaSpace missing

/-- Processing of one line of the header scan (the body of the `forEach`
at source lines 70-106). The comment-stripped copy (`tidiedLine`) the
source computes first is never read, so it does not appear. -/
def scanLine (st : ScanSt) (i : Nat) (line : String) : ScanSt :=
  if line = "" then st
  else
    match keyValueMatch line with
    | some (key, rawValue) =>
      let value := jsTrimStart rawValue
      let st1 : ScanSt := { st with inList := none }
      match permittedKeyKind key with
      | some kind =>
        if fiHas st1.found key then
          { st1 with errors := st1.errors ++ [scanDupMsg key i line] }
        else
          match kind with
          | .list =>
            if value ≠ "" then
              { st1 with errors := st1.errors ++ [scanListValMsg i line] }
            else
              { st1 with found := fiOpenList st1.found key, inList := some key }
          | .str => { st1 with found := fiSetStr st1.found key value }
      | none => { st1 with errors := st1.errors ++ [scanUnrecMsg key i line] }
    | none =>
      match st.inList with
      | some k =>
        match listItemMatch line with
        | some captured => { st with found := fiSnoc st.found k captured }
        | none => { st with errors := st.errors ++ [scanListItemMsg i line] }
      | none => { st with errors := st.errors ++ [scanNoKeyMsg i line] }

/-- Folds `scanLine` over the lines with their indices. -/
def scanLinesGo (st : ScanSt) (i : Nat) : List String → ScanSt
  | [] => st
  | l :: rest => scanLinesGo (scanLine st i l) (i + 1) rest

/-- The header scanner (source lines 65-114): splits on newlines, scans
each line, then reports any permitted keys never found. -/
def scanYamlText (text : String) (errors : List String) :
    FoundItems × List String :=
  let st := scanLinesGo { errors := errors } 0 (splitLines text)
  let missing := permittedKeysOrder.filter fun k => !(fiHas st.found k)
  let errors1 :=
    if missing.length > 0 then st.errors ++ [missingKeysMsg missing]
    else st.errors
  (st.found, errors1)

/-! ## Clue line parser (`parseAcrossAndDownLines`, source lines 138-193) -/

/-- Message for a clue line failing the clue grammar. -/
def lineParseErrMsg (direction : String) (c : Nat) (clueText : String) : String :=
  "could not parse " ++ direction ++ " clue[" ++ Nat.repr c ++ "], in line=" ++
    sqc ++ clueText ++ sqc

/-- Message for a clue id lower than its predecessor. -/
def orderErrMsg (id direction clueText : String) : String :=
  "clue[" ++ id ++ "][" ++ direction ++ "] out of id order, in line=" ++
    sqc ++ clueText ++ sqc

/-- Message for a duplicated (id, direction); the guard that should raise
it tests `clues.hasOwnProperty(direction)` (source line 162), i.e. looks
for a direction name among the id keys of the outer map. -/
def dupDirErrMsg (direction : String) (c : Nat) (clueText : String) : String :=
  "duplicate " ++ direction ++ " for clue[" ++ Nat.repr c ++ "], in line=" ++
    sqc ++ clueText ++ sqc

/-- Processes the clue lines of one direction in order, threading the line
index, the previous numeric id, the clue map and the error list. -/
def processDirLines (direction : String) :
    List String → Nat → Nat → CluesMap → List String → CluesMap × List String
  | [], _, _, clues, errors => (clues, errors)
  | clueText :: rest, c, prevIdInt, clues, errors =>
    match clueLineMatch clueText with
    | none =>
      processDirLines direction rest (c + 1) prevIdInt clues
        (errors ++ [lineParseErrMsg direction c clueText])
    | some caps =>
      let id := splitNonDigitsHead caps.idsText
      let idInt := natOfDigits id
      let errors1 :=
        if prevIdInt > idInt then errors ++ [orderErrMsg id direction clueText]
        else errors
      let clues1 := if mapHas clues id then clues else objSet clues id {}
      if mapHas clues1 direction then
        processDirLines direction rest (c + 1) idInt clues1
          (errors1 ++ [dupDirErrMsg direction c clueText])
      else
        let clue : Clue :=
          { id := id, direction := direction,
            coords := { across := natOfDigits caps.acrossText,
                        down := natOfDigits caps.downText },
            raw := { idsText := caps.idsText, bodyText := caps.bodyText,
                     answerText := caps.answerText, clueText := clueText,
                     clueTextSequenceId := c } }
        processDirLines direction rest (c + 1) idInt
          (objSet clues1 id (pairSet ((mapGet clues1 id).getD {}) direction clue))
          errors1

/-- The clue line parser (source lines 138-193): parses the across list
then the down list, and computes the largest clue id (as a string, `"0"`
when there are no clues). -/
def parseAcrossAndDownLines (acrossList downList : List String)
    (errors : List String) : CluesMap × String × List String :=
  let r1 := processDirLines "across" acrossList 0 0 [] errors
  let r2 := processDirLines "down" downList 0 0 r1.1 r1.2
  let integerIds := sortNat (r2.1.map fun e => natOfDigits e.1)
  let largestClueId :=
    if integerIds.length > 0 then Nat.repr (integerIds.getLast?.getD 0)
    else "0"
  (r2.1, largestClueId, r2.2)

/-! ## Size parser (`parseSize`, source lines 199-212) -/

/-- Grid dimensions; fields stay `none` when the size text fails to
parse (the JS `dimensions` object stays empty). -/
structure Dimensions where
  across : Option Nat := none
  down : Option Nat := none
deriving DecidableEq

/-- Message for an unparsable size declaration. -/
def sizeErrMsg (sizeText : String) : String :=
  "could not parse size from text=" ++ sqc ++ sizeText ++ sqc

/-- The size parser (source lines 199-212). -/
def parseSize (sizeText : String) (errors : List String) :
    Dimensions × List String :=
  match sizeMatch sizeText with
  | some ab =>
    ({ across := some (natOfDigits ab.1), down := some (natOfDigits ab.2) },
     errors)
  | none => ({}, errors ++ [sizeErrMsg sizeText])

/-! ## Relationship resolver (`parseCluesIds`, source lines 218-285) -/

/-- JS `String.prototype.toLowerCase` on ASCII text. -/
def jsToLower (s : String) : String := String.mk (s.toList.map Char.toLower)

/-- Message for a belongs-to clue whose own id list is not a bare id. -/
def notSimpleMsg (c : Clue) : String :=
  "clue [" ++ c.id ++ "][" ++ c.direction ++
    "] belongs to a clue, but does not have a simple idsText, " ++ c.raw.idsText

/-- Message for a belongs-to reference to an unknown id. -/
def unknownBelongsMsg (c : Clue) (bid : String) : String :=
  "clue [" ++ c.id ++ "][" ++ c.direction ++ "] belongs to an unknown id [" ++
    bid ++ "]"

/-- Message for a belongs-to reference to an id lacking the direction. -/
def noDirBelongsMsg (c : Clue) (bid bdir : String) : String :=
  "clue [" ++ c.id ++ "][" ++ c.direction ++ "] belongs to an id [" ++ bid ++
    "] without direction=" ++ bdir

/-- Message for an owns reference to an unknown id. -/
def ownsUnknownMsg (c : Clue) (ownedId : String) : String :=
  "clue [" ++ c.id ++ "][" ++ c.direction ++ "] owns an unknown id [" ++
    ownedId ++ "], in clueText=" ++ sqc ++ c.raw.clueText ++ sqc

/-- Message for an owns reference with an unknown direction suffix. -/
def ownsUnknownDirMsg (c : Clue) (ownedId odir : String) : String :=
  "clue [" ++ c.id ++ "][" ++ c.direction ++ "] owns an id [" ++ ownedId ++
    "] with an unknown direction [" ++ odir ++ "], in clueText=" ++ sqc ++
    c.raw.clueText ++ sqc

/-- Message for an owns reference whose direction cannot be inferred. -/
def ownsAmbiguousMsg (c : Clue) (ownedId : String) : String :=
  "clue [" ++ c.id ++ "][" ++ c.direction ++ "] owns an id [" ++ ownedId ++
    "] with an ambiguous direction, in clueText=" ++ sqc ++
    c.raw.clueText ++ sqc

/-- Message for an owned clue with no belongs-to. -/
def ownsNoBelongsMsg (c : Clue) (ownedId odir : String) : String :=
  "clue [" ++ c.id ++ "][" ++ c.direction ++ "] owns a clue [" ++ ownedId ++
    "][" ++ odir ++ "] which does not belongsTo anything"

/-- Message for an owned clue whose belongs-to names a different owner. -/
def ownsDiffBelongsMsg (c : Clue) (ownedId odir : String) (obt : BelongsTo) :
    String :=
  "clue [" ++ c.id ++ "][" ++ c.direction ++ "] owns a clue [" ++ ownedId ++
    "][" ++ odir ++ "] which belongsTo a different clue [" ++ obt.id ++
    "][" ++ obt.direction ++ "]"

/-- Pass 1 of the resolver for one clue (source lines 221-243): resolve
the body's "See ..." reference into `belongsTo` and validate it. On a
compound id list the error is raised and `belongsTo` is left unassigned. -/
def idsPass1Clue (clues : CluesMap) (errors : List String)
    (key : String × String) : CluesMap × List String :=
  match lookupClue clues key with
  | none => (clues, errors)
  | some clue =>
    match belongsToMatch clue.raw.bodyText with
    | none => (storeClue clues key { clue with belongsTo := none }, errors)
    | some bd =>
      if !(clue.raw.idsText.length ≠ 0 && clue.raw.idsText.toList.all isDigitCh) then
        (clues, errors ++ [notSimpleMsg clue])
      else
        let bt : BelongsTo := { id := bd.1, direction := jsToLower bd.2 }
        let clues1 := storeClue clues key { clue with belongsTo := some bt }
        let errors1 :=
          if !(mapHas clues1 bt.id) then errors ++ [unknownBelongsMsg clue bt.id]
          else if !(pairHasKey ((mapGet clues1 bt.id).getD {}) bt.direction) then
            errors ++ [noDirBelongsMsg clue bt.id bt.direction]
          else errors
        (clues1, errors1)

/-- Validation for one resolved owned reference (the tail of the item loop
at source lines 265-276): record the ownership, then require the owned
clue to point back at the owner. A missing owned clue record means the JS
code dereferences `undefined` (crash, `none`). -/
def checkOwnedRef (clues : CluesMap) (clue : Clue) (ownedId odir : String)
    (acc : List (String × String) × List String) :
    Option (List (String × String) × List String) :=
  match lookupClue clues (ownedId, odir) with
  | none => none
  | some ownedClue =>
    let owns1 := acc.1 ++ [(ownedId, odir)]
    match ownedClue.belongsTo with
    | none => some (owns1, acc.2 ++ [ownsNoBelongsMsg clue ownedId odir])
    | some obt =>
      if obt.id ≠ clue.id ∨ obt.direction ≠ clue.direction then
        some (owns1, acc.2 ++ [ownsDiffBelongsMsg clue ownedId odir obt])
      else some (owns1, acc.2)

/-- One id item of the owns pass (source lines 252-279). -/
def idsPass2Item (clues : CluesMap) (clue : Clue)
    (acc : List (String × String) × List String) (idItem : String) :
    Option (List (String × String) × List String) :=
  let parts := jsSplitCh idItem ' '
  let ownedId := (parts.head?).getD ""
  let ownedDirection : Option String := (parts.drop 1).head?
  if !(mapHas clues ownedId) then
    some (acc.1, acc.2 ++ [ownsUnknownMsg clue ownedId])
  else
    let pair := (mapGet clues ownedId).getD {}
    match ownedDirection with
    | some d =>
      if !(pairHasKey pair d) then
        some (acc.1, acc.2 ++ [ownsUnknownDirMsg clue ownedId d])
      else checkOwnedRef clues clue ownedId d acc
    | none =>
      if (pairKeys pair).length = 2 then
        some (acc.1, acc.2 ++ [ownsAmbiguousMsg clue ownedId])
      else
        match (pairKeys pair).head? with
        | some inferred => checkOwnedRef clues clue ownedId inferred acc
        | none => none

/-- Pass 2 of the resolver for one clue (source lines 246-281): every id
after the first names an owned clue. -/
def idsPass2Clue (clues : CluesMap) (errors : List String)
    (key : String × String) : Option (CluesMap × List String) :=
  match lookupClue clues key with
  | none => some (clues, errors)
  | some clue =>
    let ownedIdsItems := (jsSplitCh clue.raw.idsText ',').drop 1
    match ownedIdsItems.foldlM (idsPass2Item clues clue) ([], errors) with
    | none => none
    | some r => some (storeClue clues key { clue with owns := r.1 }, r.2)

/-- The relationship resolver (source lines 218-285): the belongs-to pass
over every clue, then the owns pass over every clue. -/
def parseCluesIds (clues : CluesMap) (errors : List String) :
    Option (CluesMap × List String) :=
  let r1 := (snapshotKeys clues).foldl
    (fun acc k => idsPass1Clue acc.1 acc.2 k) (clues, errors)
  (snapshotKeys r1.1).foldlM (fun acc k => idsPass2Clue acc.1 acc.2 k) r1

/-! ## Answer segmenter and length reconciler (`parseCluesAnswers`,
source lines 295-418) -/

/-- Message for an answer whose first token fails to parse. -/
def failedFirstMsg (c : Clue) : String :=
  "failed to parse first part of answer in clue [" ++ c.id ++ "][" ++
    c.direction ++ "], answerText=" ++ sqc ++ c.raw.answerText ++ sqc

/-- Message for a belongs-to clue with a multi-part answer. -/
def multiPartBelongsMsg (c : Clue) : String :=
  "clue [" ++ c.id ++ "][" ++ c.direction ++
    "] belongsTo another clue, but has a multi-part answer, answerText=" ++
    sqc ++ c.raw.answerText ++ sqc

/-- Message for an owner part overshooting an owned clue's length. -/
def cannotEncompassMsg (c : Clue) (o : Clue) : String :=
  "clue [" ++ c.id ++ "][" ++ c.direction ++ "]" ++ sqc ++
    "s answer.parts cannot encompass the answer of ownedClue [" ++ o.id ++
    "][" ++ o.direction ++ "]"

/-- Summary message after an encompassing failure. -/
def failedEncompassMsg (c : Clue) : String :=
  "clue [" ++ c.id ++ "][" ++ c.direction ++ "]" ++ sqc ++
    "s answer.parts failed to encompass the answers of ownedClues"

/-- Message for an owner left with zero residual length. -/
def noLengthMsg (c : Clue) : String :=
  "clue [" ++ c.id ++ "][" ++ c.direction ++ "]" ++ sqc ++
    "s answer.parts have no length left after encompassing the answers of ownedClues"

/-- Message for an owner left with no residual parts. -/
def noPartsMsg (c : Clue) : String :=
  "clue [" ++ c.id ++ "][" ++ c.direction ++ "]" ++ sqc ++
    "s has no answer.parts left after encompassing the answers of ownedClues"

/-- JS `answerText.match('^(' + wordOrNumber + ')(.*)$')`: the leading
digit run or upper-case run, with the anchored tail forbidding line
terminators in the remainder. -/
def matchFirstPart (s : List Char) : Option (List Char × List Char) :=
  match s with
  | [] => none
  | c :: _ =>
    if isDigitCh c then
      let rest := s.dropWhile isDigitCh
      if rest.all isDotCh then some (s.takeWhile isDigitCh, rest) else none
    else if isUpperCh c then
      let rest := s.dropWhile isUpperCh
      if rest.all isDotCh then some (s.takeWhile isUpperCh, rest) else none
    else none

/-- Helper: dropping a prefix never lengthens a list. -/
theorem dropWhileLenLe (p : Char → Bool) :
    ∀ l : List Char, (List.dropWhile p l).length ≤ l.length
  | [] => Nat.le_refl _
  | c :: rest => by
    simp only [List.dropWhile]
    split
    · exact Nat.le_succ_of_le (dropWhileLenLe p rest)
    · exact Nat.le_refl _

/-- One token attempt of the remaining-parts scan: the leading digit run
or upper-case run, if any. -/
def tokAt (s : List Char) : Option (List Char × List Char) :=
  match s with
  | [] => none
  | c :: _ =>
    if isDigitCh c then some (s.takeWhile isDigitCh, s.dropWhile isDigitCh)
    else if isUpperCh c then some (s.takeWhile isUpperCh, s.dropWhile isUpperCh)
    else none

/-- Fuelled worker for `scanParts`; every emitted pair consumes at least
two characters, so fuel equal to the input length never runs out. -/
def scanPartsF : Nat → List Char → List (Char × List Char)
  | 0, _ => []
  | _, [] => []
  | fuel + 1, c :: rest =>
    if isSepRange c then
      match tokAt rest with
      | some tr => (c, tr.1) :: scanPartsF fuel tr.2
      | none => scanPartsF fuel rest
    else scanPartsF fuel rest

/-- The global `exec` loop over `([,-|])((?:\d+|[A-Z]+))` (source lines
317-326): scans left to right, emitting (separator, token) pairs; a
position where the pattern fails advances the search by one character. -/
def scanParts (s : List Char) : List (Char × List Char) :=
  scanPartsF s.length s

/-- Builds the raw part records of an answer (source lines 307-326):
first token, then the scanned (separator, token) pairs, numbered in
order. -/
def buildParts (answerText : String) : Option (List APart) :=
  match matchFirstPart answerText.toList with
  | none => none
  | some fr =>
    let first : APart := { wordOrNumber := String.mk fr.1, sequence := 0 }
    let rest := (scanParts fr.2).enum.map fun p =>
      ({ wordOrNumber := String.mk p.2.2, separator := some p.2.1,
         sequence := p.1 + 1 } : APart)
    some (first :: rest)

/-- Completes one part (source lines 329-340): a token containing a digit
(here: an all-digit token) becomes a placeholder of its numeric length,
any other token displays itself; `len` is the display text's length. -/
def completePart (p : APart) : APart :=
  if p.wordOrNumber.toList.any isDigitCh then
    let text := String.mk (List.replicate (natOfDigits p.wordOrNumber) 'X')
    { p with text := text, placeholder := true, len := text.length }
  else
    { p with
      text := p.wordOrNumber, placeholder := false,
      len := p.wordOrNumber.length }

/-- Segmentation of one clue's answer (the first loop of
`parseCluesAnswers`, source lines 298-345). -/
def ansStageClue (clues : CluesMap) (errors : List String)
    (key : String × String) : CluesMap × List String :=
  match lookupClue clues key with
  | none => (clues, errors)
  | some clue =>
    match buildParts clue.raw.answerText with
    | none =>
      (storeClue clues key { clue with answer := { parts := [] } },
       errors ++ [failedFirstMsg clue])
    | some parts0 =>
      let parts := parts0.map completePart
      let alen : Int := Int.ofNat ((parts.map (·.len)).sum)
      (storeClue clues key
        { clue with answer := { parts := parts, length := some alen } },
       errors)

/-- The belongs-to single-part check (the second loop of
`parseCluesAnswers`, source lines 349-358). -/
def belongsCheckClue (clues : CluesMap) (errors : List String)
    (key : String × String) : List String :=
  match lookupClue clues key with
  | none => errors
  | some clue =>
    if clue.belongsTo.isSome ∧ clue.answer.parts.length > 1 then
      errors ++ [multiPartBelongsMsg clue]
    else errors

/-- JS truthiness of `n > 0` where `n` may be `undefined` (then false). -/
def jsGtZero : Option Int → Bool
  | some n => decide (0 < n)
  | none => false

/-- Subtraction of a part length from a JS number that may be
`undefined` (stays undefined, as NaN arithmetic keeps failing the loop
conditions). -/
def optSubNat (o : Option Int) (n : Nat) : Option Int :=
  o.map fun v => v - (n : Int)

/-- The inner `while` loop of the reconciler (source lines 386-395): pops
parts off the tail of the owner's sequence (`rev` is the remaining parts
reversed, so `pop` is head), tagging each with the owned clue and
deducting its length, until the owned clue's remaining length is no
longer positive. Popping an empty sequence is the JS crash (`pop()`
yields `undefined` whose `.clue` assignment throws): `none`. -/
def popLoop (ref : String × String) :
    List APart → Option Int → Option Int → List APart →
    Option (List APart × Option Int × Option Int × List APart)
  | [], need, remLen, acc =>
    if jsGtZero need then none else some ([], need, remLen, acc)
  | p :: rest, need, remLen, acc =>
    if jsGtZero need then
      popLoop ref rest (optSubNat need p.len) (optSubNat remLen p.len)
        ({ p with clueRef := some ref } :: acc)
    else some (p :: rest, need, remLen, acc)

/-- The loop over the reversed owns list (source lines 381-401), threading
the clue map, the reversed remaining parts, the remaining length, the
(ref, popped segment) assignments in processing order, and the added
errors. A `remainingLength` of exactly `-1` short-circuits the remaining
iterations; a missing owned clue record or a null belongs-to is the JS
crash. -/
def reconOwns (ownerClue : Clue) :
    CluesMap → List (String × String) → List APart → Option Int →
    List ((String × String) × List APart) → List String →
    Option (CluesMap × List APart × Option Int ×
            List ((String × String) × List APart) × List String)
  | clues, [], revParts, remLen, assigns, errs =>
    some (clues, revParts, remLen, assigns, errs)
  | clues, owned :: rest, revParts, remLen, assigns, errs =>
    if remLen = some (-1) then
      reconOwns ownerClue clues rest revParts remLen assigns errs
    else
      match lookupClue clues owned with
      | none => none
      | some ownedClue =>
        match ownedClue.belongsTo with
        | none => none
        | some obt =>
          match popLoop (ownedClue.id, ownedClue.direction) revParts
              ownedClue.answer.length remLen [] with
          | none => none
          | some r =>
            let revParts1 := r.1
            let needAfter := r.2.1
            let remLen1 := r.2.2.1
            let seg := r.2.2.2
            let clues1 := storeClue clues owned
              { ownedClue with
                belongsTo :=
                  some { obt with
                         partsSequence := some (seg.map (·.sequence)) } }
            if needAfter ≠ some 0 then
              reconOwns ownerClue clues1 rest revParts1 (some (-1))
                (assigns ++ [(owned, seg)])
                (errs ++ [cannotEncompassMsg ownerClue ownedClue])
            else
              reconOwns ownerClue clues1 rest revParts1 remLen1
                (assigns ++ [(owned, seg)]) errs

/-- Length reconciliation for one clue (the third loop of
`parseCluesAnswers`, source lines 369-414): only acts on owners;
records the pre-redistribution total in `lengthOwned`, walks the owns
list reversed, then applies the final residual checks. -/
def ownsStageClue (clues : CluesMap) (errors : List String)
    (key : String × String) : Option (CluesMap × List String) :=
  match lookupClue clues key with
  | none => some (clues, errors)
  | some clue =>
    if clue.owns.length > 0 then
      let origLen := clue.answer.length
      let clues0 := storeClue clues key
        { clue with answer := { clue.answer with lengthOwned := origLen } }
      match reconOwns clue clues0 clue.owns.reverse
          clue.answer.parts.reverse origLen [] [] with
      | none => none
      | some r =>
        let clues1 := r.1
        let remaining := r.2.1.reverse
        let remLen := r.2.2.1
        let assigns := r.2.2.2.1
        let errsAdded := r.2.2.2.2
        let newParts := remaining ++ (assigns.reverse.map (·.2)).flatten
        match lookupClue clues1 key with
        | none => none
        | some ownerNow =>
          let withParts : Clue :=
            { ownerNow with answer := { ownerNow.answer with parts := newParts } }
          if remLen = some (-1) then
            some (storeClue clues1 key withParts,
                  errors ++ errsAdded ++ [failedEncompassMsg clue])
          else if remLen = some 0 then
            some (storeClue clues1 key withParts,
                  errors ++ errsAdded ++ [noLengthMsg clue])
          else if remaining.length = 0 then
            some (storeClue clues1 key withParts,
                  errors ++ errsAdded ++ [noPartsMsg clue])
          else
            some (storeClue clues1 key
              { ownerNow with
                answer := { ownerNow.answer with
                            parts := newParts, length := remLen } },
              errors ++ errsAdded)
    else some (clues, errors)

/-- The answer segmenter and length reconciler (source lines 295-418):
three loops over the clues; the third can crash (`none`). -/
def parseCluesAnswers (clues : CluesMap) (errors : List String) :
    Option (CluesMap × List String) :=
  let r1 := (snapshotKeys clues).foldl
    (fun acc k => ansStageClue acc.1 acc.2 k) (clues, errors)
  let e2 := (snapshotKeys r1.1).foldl
    (fun errs k => belongsCheckClue r1.1 errs k) r1.2
  (snapshotKeys r1.1).foldlM (fun acc k => ownsStageClue acc.1 acc.2 k)
    (r1.1, e2)

/-! ## Grid validator (`checkAnswersFitInDimensions`, source lines
425-449) -/

/-- JS `n > d` where `d` may be `undefined` (then false). -/
def natGtOpt (n : Nat) (o : Option Nat) : Bool :=
  match o with
  | some d => decide (d < n)
  | none => false

/-- JS `n + v` where `v` may be `undefined`. -/
def jsAddNatOpt (n : Nat) (o : Option Int) : Option Int :=
  o.map fun v => (n : Int) + v

/-- JS `a > d` where either side may be `undefined` (then false). -/
def optGtOptNat (a : Option Int) (b : Option Nat) : Bool :=
  match a, b with
  | some x, some y => decide ((y : Int) < x)
  | _, _ => false

/-- Rendering of a possibly-undefined number in a template string. -/
def optNatRepr : Option Nat → String
  | some n => Nat.repr n
  | none => "undefined"

/-- Rendering of a possibly-undefined number in a template string. -/
def optIntRepr : Option Int → String
  | some n => Int.repr n
  | none => "undefined"

/-- Message for an across start coordinate beyond the grid. -/
def fitStartAcrossMsg (c : Clue) (dims : Dimensions) : String :=
  "clue [" ++ c.id ++ "][" ++ c.direction ++
    "] starts outside of the grid: clue.coords.across (" ++
    Nat.repr c.coords.across ++ ") > dimensions.across (" ++
    optNatRepr dims.across ++ ")"

/-- Message for a down start coordinate beyond the grid (the source's
template names `dimensions.across` but prints the down dimension). -/
def fitStartDownMsg (c : Clue) (dims : Dimensions) : String :=
  "clue [" ++ c.id ++ "][" ++ c.direction ++
    "] starts outside of the grid: clue.coords.down (" ++
    Nat.repr c.coords.down ++ ") > dimensions.across (" ++
    optNatRepr dims.down ++ ")"

/-- Message for an across extent beyond the grid. -/
def fitEndAcrossMsg (c : Clue) (dims : Dimensions) (acrossest : Option Int) :
    String :=
  "clue [" ++ c.id ++ "][" ++ c.direction ++
    "] ends outside of the grid: acrossest (" ++ optIntRepr acrossest ++
    ") > dimensions.across (" ++ optNatRepr dims.across ++ ")"

/-- Message for a down extent beyond the grid (the source says "starts"
and names `dimensions.across` while printing the down dimension). -/
def fitEndDownMsg (c : Clue) (dims : Dimensions) (downest : Option Int) :
    String :=
  "clue [" ++ c.id ++ "][" ++ c.direction ++
    "] starts outside of the grid: downest (" ++ optIntRepr downest ++
    ") > dimensions.across (" ++ optNatRepr dims.down ++ ")"

/-- The four per-clue bounds checks (the body of the loop at source lines
429-443); each violated check appends its own message. -/
def fitClueErrors (clue : Clue) (dims : Dimensions) : List String :=
  let acrossest := jsAddNatOpt clue.coords.across
    (if clue.direction = "across" then clue.answer.length else some 0)
  let downest := jsAddNatOpt clue.coords.down
    (if clue.direction = "down" then clue.answer.length else some 0)
  (if natGtOpt clue.coords.across dims.across then
    [fitStartAcrossMsg clue dims] else []) ++
  (if natGtOpt clue.coords.down dims.down then
    [fitStartDownMsg clue dims] else []) ++
  (if optGtOptNat acrossest dims.across then
    [fitEndAcrossMsg clue dims acrossest] else []) ++
  (if optGtOptNat downest dims.down then
    [fitEndDownMsg clue dims downest] else [])

/-- The grid validator (source lines 425-449). -/
def checkAnswersFitInDimensions (clues : CluesMap) (dims : Dimensions)
    (errors : List String) : List String :=
  (snapshotKeys clues).foldl
    (fun errs k =>
      match lookupClue clues k with
      | none => errs
      | some clue => errs ++ fitClueErrors clue dims)
    errors

/-! ## Contiguity validator (`checkClueContiguity`, source lines 457-483) -/

/-- Message for an id found out of place in the ascending id sequence. -/
def missingClueMsg (idInt : Nat) : String :=
  "missing clue[" ++ Nat.repr idInt ++ "]"

/-- The missing-id sweep (source lines 463-467): sorts the numeric ids
ascending and reports every id not equal to its position plus one. -/
def contigMissing (ids : List Nat) : List String :=
  (sortNat ids).enum.filterMap fun p =>
    if p.2 ≠ p.1 + 1 then some (missingClueMsg p.2) else none

/-- Message for an id whose two directional clues disagree on coords. -/
def diffCoordsMsg (id : String) : String :=
  "clue[" ++ id ++ "] has different coords for it" ++ sqc ++
    "s across and down variants"

/-- The contiguity validator (source lines 457-483). -/
def checkClueContiguity (clues : CluesMap) (errors : List String) :
    List String :=
  let cluesIds := clues.map (·.1)
  let errs1 := errors ++ contigMissing (cluesIds.map natOfDigits)
  cluesIds.foldl
    (fun errs id =>
      match mapGet clues id with
      | none => errs
      | some pair =>
        match pair.across, pair.down with
        | some a, some d =>
          if a.coords.across ≠ d.coords.across ∨ a.coords.down ≠ d.coords.down
          then errs ++ [diffCoordsMsg id]
          else errs
        | _, _ => errs)
    errs1

/-! ## Orchestration (`innerParse` and `parse`, source lines 489-539) -/

/-- The mutable parse state threaded through the stages. Stage outputs are
merged in by `Object.assign`; fields are `none` until their stage runs.
The static `spec` object the source also attaches is out of scope. -/
structure Parsing where
  errors : List String := []
  text : String := ""
  version : Option String := none
  name : Option String := none
  author : Option String := none
  editor : Option String := none
  copyright : Option String := none
  publisher : Option String := none
  pubdate : Option String := none
  size : Option String := none
  across : Option (List String) := none
  down : Option (List String) := none
  clues : Option CluesMap := none
  largestClueId : Option String := none
  dimensions : Option Dimensions := none
  isValid : Option Bool := none
deriving DecidableEq

/-- JS `Object.assign(parsing, foundItems)`. -/
def mergeFound (p : Parsing) (f : FoundItems) : Parsing :=
  { p with
    version := f.version, name := f.name, author := f.author,
    editor := f.editor, copyright := f.copyright, publisher := f.publisher,
    pubdate := f.pubdate, size := f.size, across := f.across, down := f.down }

/-- The staged pipeline (source lines 489-525): each stage runs only while
the error list is empty; a `none` result is an uncaught JS exception
escaping `parse`. The unreachable arms for a missing size or missing
across/down lists (impossible once the scan reported no errors) likewise
model the JS crash on `undefined`. -/
def innerParse (p0 : Parsing) : Option Parsing :=
  if p0.text = "" then
    some { p0 with errors := p0.errors ++ ["No text specified"] }
  else
    let scanned := scanYamlText p0.text p0.errors
    let p1 := { mergeFound p0 scanned.1 with errors := scanned.2 }
    if p1.errors.length ≠ 0 then some p1
    else
      match p1.across, p1.down with
      | some acrossL, some downL =>
        let lined := parseAcrossAndDownLines acrossL downL p1.errors
        let p2 := { p1 with
                    clues := some lined.1,
                    largestClueId := some lined.2.1, errors := lined.2.2 }
        if p2.errors.length ≠ 0 then some p2
        else
          match p2.size with
          | some sizeText =>
            let sized := parseSize sizeText p2.errors
            let p3 := { p2 with dimensions := some sized.1, errors := sized.2 }
            if p3.errors.length ≠ 0 then some p3
            else
              match parseCluesIds lined.1 p3.errors with
              | none => none
              | some r4 =>
                let p4 := { p3 with clues := some r4.1, errors := r4.2 }
                if p4.errors.length ≠ 0 then some p4
                else
                  match parseCluesAnswers r4.1 p4.errors with
                  | none => none
                  | some r5 =>
                    let p5 := { p4 with clues := some r5.1, errors := r5.2 }
                    if p5.errors.length ≠ 0 then some p5
                    else
                      let e6 := checkAnswersFitInDimensions r5.1 sized.1 p5.errors
                      let p6 := { p5 with errors := e6 }
                      if p6.errors.length ≠ 0 then some p6
                      else
                        let e7 := checkClueContiguity r5.1 p6.errors
                        some { p6 with errors := e7 }
          | none => none
      | _, _ => none

/-- The entry point (source lines 530-539): seeds the state, runs
`innerParse`, then derives `isValid` from the error list. `none` is an
uncaught exception. -/
def parse (text : String) : Option Parsing :=
  match innerParse { errors := [], text := text } with
  | none => none
  | some p => some { p with isValid := some (p.errors.length = 0) }

/-! ## Concrete inputs used to settle the claims -/

/-- A complete crossword text whose owner clue declares a combined answer
of 3 letters while its owned clue declares 5: every stage before length
reconciliation passes cleanly, and reconciliation pops the owner's part
sequence empty. -/
def crashText : String :=
  "version: standard v2\nname: c\nauthor: a\neditor: e\ncopyright: c\npublisher: p\npubdate: d\nsize: 15x15\nacross:\n- (1,1) 1,2 down. AAA (3)\ndown:\n- (3,1) 2. See 1 Across (5)"

/-- A well-formed across clue line. -/
def dupLine : String := "- (1,1) 1. AAA (3)"

/-- A clue line whose answer tokens are joined by a full stop. -/
def dotSepLine : String := "- (1,1) 1. A clue (5.4)"

/-- A clue line whose second id omits the direction suffix. -/
def noSuffixLine : String := "- (1,1) 1,2. An Across clue (5,4)"

/-- The same clue line with the suffix present. -/
def suffixLine : String := "- (1,1) 1,2 down. An Across clue (5,4)"

/-- An owner clue whose id list references clue 2 with no direction
suffix (only producible by calling the resolver directly, since the line
grammar rejects the suffix-free form). -/
def ownerNoSuffix : Clue :=
  { id := "1", direction := "across", coords := { across := 1, down := 1 },
    raw := { idsText := "1,2", bodyText := "An Across clue",
             answerText := "5,4", clueText := noSuffixLine,
             clueTextSequenceId := 0 } }

/-- A down clue 2 that belongs to 1 across. -/
def clueTwoDown : Clue :=
  { id := "2", direction := "down", coords := { across := 3, down := 1 },
    raw := { idsText := "2", bodyText := "See 1 Across", answerText := "4",
             clueText := "- (3,1) 2. See 1 Across (4)",
             clueTextSequenceId := 0 } }

/-- An across clue 2 that belongs to 1 across. -/
def clueTwoAcross : Clue :=
  { id := "2", direction := "across", coords := { across := 3, down := 1 },
    raw := { idsText := "2", bodyText := "See 1 Across", answerText := "4",
             clueText := "- (3,1) 2. See 1 Across (4)",
             clueTextSequenceId := 0 } }

/-- A clue map in which the owned id 2 exists in both directions. -/
def mapBothDirs : CluesMap :=
  [("1", { across := some ownerNoSuffix }),
   ("2", { across := some clueTwoAcross, down := some clueTwoDown })]

/-- A clue map in which the owned id 2 exists only as a down clue. -/
def mapOneDir : CluesMap :=
  [("1", { across := some ownerNoSuffix }),
   ("2", { down := some clueTwoDown })]

/-- A raw-fragment stub for hand-built clue maps. -/
def stubRaw (idv : String) : RawClue :=
  { idsText := idv, bodyText := "B", answerText := "3",
    clueText := "- (1,1) " ++ idv ++ ". B (3)", clueTextSequenceId := 0 }

/-- A minimal clue for hand-built clue maps. -/
def stubClue (idv dir : String) (x y : Nat) : Clue :=
  { id := idv, direction := dir, coords := { across := x, down := y },
    raw := stubRaw idv }

/-- A clue map whose ids are 2 and 3 (integer 1 absent). -/
def mapTwoThree : CluesMap :=
  [("2", { across := some (stubClue "2" "across" 1 1) }),
   ("3", { across := some (stubClue "3" "across" 3 1) })]

/-- A five-letter placeholder part. -/
def c8Part : APart :=
  { wordOrNumber := "5", sequence := 0, text := "XXXXX", placeholder := true,
    len := 5 }

/-- An across clue starting at (20, 1) with answer length 5. -/
def c8Clue : Clue :=
  { id := "1", direction := "across", coords := { across := 20, down := 1 },
    raw := stubRaw "1", answer := { parts := [c8Part], length := some 5 } }

/-- A 10 by 10 grid. -/
def dims1010 : Dimensions := { across := some 10, down := some 10 }

/-! ## Small helper lemmas -/

/-- Strings with equal character data are equal. -/
theorem strExt {a b : String} (h : a.data = b.data) : a = b :=
  congrArg String.mk h

/-- Dropping the length of the taken prefix is dropping the prefix. -/
theorem dropLenTakeWhile (p : α → Bool) :
    ∀ l : List α, l.drop (l.takeWhile p).length = l.dropWhile p
  | [] => rfl
  | c :: rest => by
    by_cases h : p c
    · simp [List.takeWhile_cons, List.dropWhile_cons, h, dropLenTakeWhile p rest]
    · simp [List.takeWhile_cons, List.dropWhile_cons, h]

/-! ## Claim C9 -/

/-- Claim C9: calling the parse entry point with no input text (the JS
default argument makes a missing argument the empty string) yields a
result whose error list is exactly the one entry containing "No text",
with `isValid` false and every other parse-derived field unpopulated. -/
theorem parse_no_text :
    parse "" =
      some { errors := ["No text specified"], text := "",
             isValid := some false } ∧
    strHasSub "No text specified" "No text" = true := by decide

/-! ## Claim C2 -/

/-- Claim C2 (refutation): the parse entry point does not return normally
on every input. On `crashText` every stage before length reconciliation
passes with an empty error list, and reconciliation pops the owner's part
sequence empty, so the JS code assigns a property of `undefined` and the
TypeError escapes `parse` (modelled as `none`). -/
theorem parse_crashes_on_uncoverable_owned_length : parse crashText = none := by
  decide

/-! ## Claim C3 -/

/-- Claim C3 (refutation): two across lines with the same canonical id
record no error at all — the duplicate guard tests
`clues.hasOwnProperty(direction)` on the id-keyed map, which never holds —
and the second line silently overwrites the first (its sequence id 1 is
the one stored). -/
theorem duplicate_clue_lines_yield_no_error :
    (parseAcrossAndDownLines [dupLine, dupLine] [] []).2.2 = [] ∧
    (lookupClue (parseAcrossAndDownLines [dupLine, dupLine] [] []).1
      ("1", "across")).map (fun c => c.raw.clueTextSequenceId) = some 1 := by
  decide

/-! ## Claim C4 -/

/-- Claim C4 (refutation): a clue line whose answer tokens are joined by a
full stop parses successfully — the separator class `[,-|]` is the
character range from comma to the vertical bar — and the parsed part's
separator is the full stop, which is none of the three documented
separator characters. -/
theorem answer_separator_range_accepts_dot :
    clueLineMatch dotSepLine = some ⟨"1", "1", "1", "A clue", "5.4"⟩ ∧
    ((buildParts "5.4").getD []).map (·.separator) = [none, some '.'] ∧
    ('.' ∈ ([',', '|', '-'] : List Char) → False) := by decide

/-! ## Claim C5 -/

/-- Claim C5 (counterexample): the clue-line grammar does not accept an
id list whose second id omits the direction suffix — the suffix group in
`idsRegexComponent` carries no question mark, so it is mandatory. -/
theorem ids_suffix_omitted_rejected : clueLineMatch noSuffixLine = none := by
  decide

/-- Claim C5 (amended): the grammar requires the direction suffix on every
id after the first (the suffixed line parses, the suffix-free line does
not); when the resolver itself is handed an id item with no suffix, an
owned id present in both directions draws the "ambiguous direction"
error, and an owned id present in exactly one direction has that
direction inferred. -/
theorem ids_suffix_required_resolver_infers :
    (clueLineMatch suffixLine).map (·.idsText) = some "1,2 down" ∧
    clueLineMatch noSuffixLine = none ∧
    (parseCluesIds mapBothDirs []).map (·.2) =
      some [ownsAmbiguousMsg ownerNoSuffix "2"] ∧
    (parseCluesIds mapOneDir []).map
      (fun r => (r.2, (lookupClue r.1 ("1", "across")).map (·.owns))) =
      some ([], some [("2", "down")]) := by decide

/-! ## Claim C6 -/

/-- Claim C6 (counterexample): the size text `0x5` parses with no error,
yet the across dimension is 0, which is not strictly positive — the size
pattern's digit runs admit zero. -/
theorem size_zero_parses_successfully :
    parseSize "0x5" [] = ({ across := some 0, down := some 5 }, []) ∧
    ¬ (0 : Nat) < 0 := by decide

/-! ## Claim C7 -/

/-- Claim C7 (counterexample): with ids 2 and 3 the only integer absent
from 1..3 is 1, yet the contiguity check reports two errors, naming 2 and
3 (each id out of its sorted position), and no error names clue 1. -/
theorem missing_clue_errors_name_shifted_ids :
    checkClueContiguity mapTwoThree [] = [missingClueMsg 2, missingClueMsg 3] ∧
    (List.range' 1 3).filter (fun k => decide (k ∉ ([2, 3] : List Nat))) = [1] ∧
    missingClueMsg 1 ∉ checkClueContiguity mapTwoThree [] := by decide

/-! ## Claim C8 -/

/-- Claim C8 (counterexample): one across clue starting beyond the grid
produces two errors containing "outside" (start check and extent check),
not exactly one. -/
theorem grid_two_outside_errors_for_one_clue :
    fitClueErrors c8Clue dims1010 =
      [fitStartAcrossMsg c8Clue dims1010,
       fitEndAcrossMsg c8Clue dims1010 (some 25)] ∧
    (fitClueErrors c8Clue dims1010).length = 2 ∧
    (∀ e ∈ fitClueErrors c8Clue dims1010, strHasSub e "outside" = true) := by
  decide

/-! ## Claim C10 -/

/-- Claim C10: for a scalar header line matching `key: value`, the scanner
stores the raw text after the first colon with only leading whitespace
removed — so a `#` and everything after it are retained — even though it
computes a comment-stripped, right-trimmed copy of the line (`tidiedLine`)
that it never consults. The first conjunct reconstructs the line shape
from the match; the last two exhibit the divergence between the stored
value and the tidied copy on a line with a comment. -/
theorem scan_scalar_value_keeps_hash (st : ScanSt) (i : Nat)
    (line k rest : String)
    (hkv : keyValueMatch line = some (k, rest))
    (hk : permittedKeyKind k = some .str)
    (hfound : fiHas st.found k = false) :
    line = k ++ ":" ++ rest ∧
    (scanLine st i line).found = fiSetStr st.found k (jsTrimStart rest) ∧
    (scanYamlText "author: Bob # x" []).1.author = some "Bob # x" ∧
    tidiedLine "author: Bob # x" = "author: Bob" := by
  have hline : line = k ++ ":" ++ rest := by
    unfold keyValueMatch at hkv
    simp only [String.toList] at hkv
    split at hkv
    · exact absurd hkv (by simp)
    next hlen =>
      split at hkv
      next restl heq =>
        split at hkv
        next hall =>
          have h2 := Option.some.inj hkv
          have hk1 := congrArg Prod.fst h2
          have hr1 := congrArg Prod.snd h2
          simp only at hk1 hr1
          apply strExt
          have hstep : line.data =
              List.takeWhile isLowerCh line.data ++ (':' :: restl) := by
            conv_lhs => rw [← List.takeWhile_append_dropWhile isLowerCh line.data]
            rw [← dropLenTakeWhile isLowerCh line.data, heq]
          rw [hstep, String.data_append, String.data_append, ← hk1, ← hr1]
          simp
        · exact absurd hkv (by simp)
      next => exact absurd hkv (by simp)
  have hne : line ≠ "" := by
    intro h0
    have hnone : keyValueMatch "" = none := by decide
    rw [h0, hnone] at hkv
    exact Option.noConfusion hkv
  refine ⟨hline, ?_, by decide, by decide⟩
  simp [scanLine, if_neg hne, hkv, hk, hfound]

/-- Witness for C10 at the header line `author: Bob # x`. -/
theorem scan_scalar_value_keeps_hash_witness :
    "author: Bob # x" = "author" ++ ":" ++ " Bob # x" ∧
    (scanLine {} 0 "author: Bob # x").found =
      fiSetStr (ScanSt.found {}) "author" (jsTrimStart " Bob # x") ∧
    (scanYamlText "author: Bob # x" []).1.author = some "Bob # x" ∧
    tidiedLine "author: Bob # x" = "author: Bob" :=
  scan_scalar_value_keeps_hash {} 0 "author: Bob # x" "author" " Bob # x"
    (by decide) (by decide) (by decide)

/-! ## Claim C6, amended -/

/-- The digit fold is zero exactly when the seed and every digit are. -/
theorem digitsFoldZero :
    ∀ (l : List Char) (acc : Nat),
      (l.foldl (fun a c => a * 10 + (c.toNat - 48)) acc = 0) ↔
        (acc = 0 ∧ ∀ c ∈ l, c.toNat - 48 = 0)
  | [], acc => by simp
  | c :: cs, acc => by
    rw [List.foldl_cons, digitsFoldZero cs (acc * 10 + (c.toNat - 48))]
    constructor
    · rintro ⟨h1, h2⟩
      refine ⟨by omega, ?_⟩
      intro d hd
      rcases hd with _ | hd
      · omega
      · exact h2 _ (by assumption)
    · rintro ⟨h1, h2⟩
      have hc := h2 c (by simp)
      exact ⟨by omega, fun d hd => h2 d (by simp [hd])⟩

/-- For a digit character, digit value zero means the character is `0`. -/
theorem digitChZero (c : Char) (hc : isDigitCh c = true) :
    (c.toNat - 48 = 0) ↔ c = '0' := by
  constructor
  · intro h
    have h48 : c.toNat = 48 := by
      unfold isDigitCh at hc
      simp only [Bool.and_eq_true, decide_eq_true_eq] at hc
      omega
    apply Char.ext
    apply UInt32.ext
    simpa [Char.toNat] using h48
  · intro h
    subst h
    decide

/-- The numeric value of an all-digit run is positive exactly when some
digit is nonzero. -/
theorem digitsToNatPos (l : List Char) (hl : ∀ c ∈ l, isDigitCh c = true) :
    0 < digitsToNat l ↔ ∃ c ∈ l, c ≠ '0' := by
  have hz : digitsToNat l = 0 ↔ ∀ c ∈ l, c = '0' := by
    unfold digitsToNat
    rw [digitsFoldZero l 0]
    constructor
    · rintro ⟨-, h⟩
      exact fun c hc => (digitChZero c (hl c hc)).mp (h c hc)
    · intro h
      exact ⟨rfl, fun c hc => (digitChZero c (hl c hc)).mpr (h c hc)⟩
  constructor
  · intro hpos
    by_contra hno
    push_neg at hno
    have : digitsToNat l = 0 := hz.mpr hno
    omega
  · rintro ⟨c, hc, hne⟩
    rcases Nat.eq_zero_or_pos (digitsToNat l) with h0 | h
    · exact absurd (hz.mp h0 c hc) hne
    · exact h

/-- Inversion of a successful size match: both captures are digit runs. -/
theorem sizeMatchDigits (s a b : String) (h : sizeMatch s = some (a, b)) :
    (∀ c ∈ a.toList, isDigitCh c = true) ∧
    (∀ c ∈ b.toList, isDigitCh c = true) := by
  unfold sizeMatch at h
  simp only [String.toList] at h
  split at h
  · exact absurd h (by simp)
  · split at h
    next r2 heq =>
      split at h
      next hcond =>
        have h2 := Option.some.inj h
        have ha := congrArg Prod.fst h2
        have hb := congrArg Prod.snd h2
        simp only at ha hb
        constructor
        · intro c hc
          rw [← ha] at hc
          exact List.mem_takeWhile_imp hc
        · intro c hc
          rw [← hb] at hc
          exact List.mem_takeWhile_imp hc
      · exact absurd h (by simp)
    next => exact absurd h (by simp)

/-- Claim C6 (amended): whenever size parsing succeeds (appends no error),
the two dimensions are exactly the numeric values of the two digit runs of
the size text — hence non-negative, and strictly positive precisely when
the corresponding run contains a nonzero digit. -/
theorem size_success_dims_from_digit_runs (s : String) (d : Dimensions)
    (h : parseSize s [] = (d, [])) :
    ∃ a b, sizeMatch s = some (a, b) ∧
      d.across = some (natOfDigits a) ∧ d.down = some (natOfDigits b) ∧
      (0 < natOfDigits a ↔ ∃ c ∈ a.toList, c ≠ '0') ∧
      (0 < natOfDigits b ↔ ∃ c ∈ b.toList, c ≠ '0') := by
  unfold parseSize at h
  split at h
  next ab heq =>
    have hd := congrArg Prod.fst h
    simp only at hd
    obtain ⟨hda, hdb⟩ := sizeMatchDigits s ab.1 ab.2 heq
    refine ⟨ab.1, ab.2, heq, ?_, ?_, ?_, ?_⟩
    · rw [← hd]
    · rw [← hd]
    · exact digitsToNatPos _ hda
    · exact digitsToNatPos _ hdb
  next =>
    have he := congrArg Prod.snd h
    simp at he

/-- Witness for the amended C6 at size text `15x15`. -/
theorem size_success_dims_from_digit_runs_witness :
    ∃ a b, sizeMatch "15x15" = some (a, b) ∧
      ({ across := some 15, down := some 15 } : Dimensions).across =
        some (natOfDigits a) ∧
      ({ across := some 15, down := some 15 } : Dimensions).down =
        some (natOfDigits b) ∧
      (0 < natOfDigits a ↔ ∃ c ∈ a.toList, c ≠ '0') ∧
      (0 < natOfDigits b ↔ ∃ c ∈ b.toList, c ≠ '0') :=
  size_success_dims_from_digit_runs "15x15"
    { across := some 15, down := some 15 } (by decide)

/-! ## Claim C7, amended -/

/-- Sorted insertion adds one element. -/
theorem insNatLen (n : Nat) : ∀ l : List Nat, (insNat n l).length = l.length + 1
  | [] => rfl
  | m :: ms => by
    by_cases h : n ≤ m <;> simp [insNat, h, insNatLen n ms]

/-- Sorting preserves length. -/
theorem sortNatLen : ∀ l : List Nat, (sortNat l).length = l.length
  | [] => rfl
  | n :: ns => by simp [sortNat, insNatLen, sortNatLen ns]

/-- Membership in a sorted insertion. -/
theorem memInsNat (a n : Nat) : ∀ l : List Nat,
    (a ∈ insNat n l ↔ a = n ∨ a ∈ l)
  | [] => by simp [insNat]
  | m :: ms => by
    by_cases h : n ≤ m
    · simp [insNat, h]
    · simp [insNat, h, memInsNat a n ms]
      tauto

/-- Sorting preserves membership. -/
theorem memSortNat (a : Nat) : ∀ l : List Nat, (a ∈ sortNat l ↔ a ∈ l)
  | [] => Iff.rfl
  | n :: ns => by simp [sortNat, memInsNat, memSortNat a ns]

/-- The second component of an enumerated pair is a list member. -/
theorem enumFromSnd (p : Nat × Nat) :
    ∀ (l : List Nat) (k : Nat), p ∈ l.enumFrom k → p.2 ∈ l
  | [], _, h => by simp [List.enumFrom] at h
  | a :: l, k, h => by
    simp only [List.enumFrom, List.mem_cons] at h
    rcases h with h | h
    · simp [h]
    · exact List.mem_cons_of_mem a (enumFromSnd p l (k + 1) h)

/-- The positional sweep reports nothing exactly when the list is the
consecutive run starting just above the offset. -/
theorem contigAux :
    ∀ (l : List Nat) (k : Nat),
      ((l.enumFrom k).filterMap fun p =>
          if p.2 ≠ p.1 + 1 then some (missingClueMsg p.2) else none) = [] ↔
        l = List.range' (k + 1) l.length
  | [], k => by simp [List.enumFrom]
  | a :: l, k => by
    simp only [List.enumFrom, List.filterMap_cons, List.length_cons,
      List.range'_succ]
    by_cases h : a = k + 1
    · simp only [h, ne_eq, not_true_eq_false, ite_false]
      rw [contigAux l (k + 1)]
      constructor
      · intro hl
        rw [← hl]
      · intro hl
        rw [(List.cons_eq_cons.mp hl).2, List.length_range']
    · rw [if_pos (show a ≠ k + 1 from h)]
      constructor
      · intro hl
        exact absurd hl (by simp)
      · intro hl
        exact absurd (List.cons_eq_cons.mp hl).1 h

/-- Claim C7 (amended): the contiguity sweep reports no "missing clue"
error exactly when the ids sort into the gap-free sequence 1..N; and each
error it does report names an id of the input (one whose value differs
from its ascending position plus one), not an absent integer. -/
theorem missing_clue_errors_iff_gap_free (ids : List Nat) :
    (contigMissing ids = [] ↔ sortNat ids = List.range' 1 ids.length) ∧
    (∀ e ∈ contigMissing ids, ∃ k, k ∈ ids ∧ e = missingClueMsg k) := by
  constructor
  · unfold contigMissing
    rw [show (sortNat ids).enum = (sortNat ids).enumFrom 0 from rfl]
    rw [contigAux (sortNat ids) 0, sortNatLen]
  · intro e he
    unfold contigMissing at he
    rw [List.mem_filterMap] at he
    obtain ⟨p, hp, hfe⟩ := he
    split at hfe
    · refine ⟨p.2, ?_, (Option.some.inj hfe).symm⟩
      exact (memSortNat p.2 ids).mp
        (enumFromSnd p (sortNat ids) 0 hp)
    · exact Option.noConfusion hfe

/-! ## Claim C8, amended -/

/-- A prefix of a list is a prefix of any right extension. -/
theorem hasPreApp : ∀ (n h b : List Char),
    hasPre n h = true → hasPre n (h ++ b) = true
  | [], _, _, _ => rfl
  | a :: as, [], b, hp => by simp [hasPre] at hp
  | a :: as, c :: hs, b, hp => by
    simp only [hasPre, Bool.and_eq_true, decide_eq_true_eq] at hp
    simp only [List.cons_append, hasPre, Bool.and_eq_true, decide_eq_true_eq]
    exact ⟨hp.1, hasPreApp as hs b hp.2⟩

/-- The empty needle occurs everywhere. -/
theorem hasSubNil : ∀ b : List Char, hasSub [] b = true
  | [] => rfl
  | _ :: _ => by simp [hasSub, hasPre]

/-- Occurrence is preserved by prepending text. -/
theorem hasSubApR : ∀ (n a b : List Char),
    hasSub n b = true → hasSub n (a ++ b) = true
  | _, [], _, h => h
  | n, c :: as, b, h => by
    simp only [List.cons_append, hasSub, Bool.or_eq_true]
    exact Or.inr (hasSubApR n as b h)

/-- Occurrence is preserved by appending text. -/
theorem hasSubApL : ∀ (n a b : List Char),
    hasSub n a = true → hasSub n (a ++ b) = true
  | n, [], b, h => by
    cases n with
    | nil => exact hasSubNil b
    | cons x xs => simp [hasSub, hasPre] at h
  | n, c :: as, b, h => by
    simp only [hasSub, Bool.or_eq_true] at h
    simp only [List.cons_append, hasSub, Bool.or_eq_true]
    rcases h with h | h
    · exact Or.inl (hasPreApp n (c :: as) b h)
    · exact Or.inr (hasSubApL n as b h)

/-- Character data of a string concatenation. -/
theorem strToListApp (a b : String) : (a ++ b).toList = a.toList ++ b.toList :=
  String.data_append a b

/-- String-level: containment in the left operand survives appending. -/
theorem strHasSubApL (a b n : String) (h : strHasSub a n = true) :
    strHasSub (a ++ b) n = true := by
  unfold strHasSub at *
  rw [strToListApp]
  exact hasSubApL _ _ _ h

/-- String-level: containment in the right operand survives prepending. -/
theorem strHasSubApR (a b n : String) (h : strHasSub b n = true) :
    strHasSub (a ++ b) n = true := by
  unfold strHasSub at *
  rw [strToListApp]
  exact hasSubApR _ _ _ h

/-- The across-start message contains "outside". -/
theorem fitStartAcrossMsgOutside (c : Clue) (dims : Dimensions) :
    strHasSub (fitStartAcrossMsg c dims) "outside" = true := by
  unfold fitStartAcrossMsg
  apply strHasSubApL
  apply strHasSubApL
  apply strHasSubApL
  apply strHasSubApL
  apply strHasSubApR
  decide

/-- The down-start message contains "outside". -/
theorem fitStartDownMsgOutside (c : Clue) (dims : Dimensions) :
    strHasSub (fitStartDownMsg c dims) "outside" = true := by
  unfold fitStartDownMsg
  apply strHasSubApL
  apply strHasSubApL
  apply strHasSubApL
  apply strHasSubApL
  apply strHasSubApR
  decide

/-- The across-extent message contains "outside". -/
theorem fitEndAcrossMsgOutside (c : Clue) (dims : Dimensions) (x : Option Int) :
    strHasSub (fitEndAcrossMsg c dims x) "outside" = true := by
  unfold fitEndAcrossMsg
  apply strHasSubApL
  apply strHasSubApL
  apply strHasSubApL
  apply strHasSubApL
  apply strHasSubApR
  decide

/-- The down-extent message contains "outside". -/
theorem fitEndDownMsgOutside (c : Clue) (dims : Dimensions) (x : Option Int) :
    strHasSub (fitEndDownMsg c dims x) "outside" = true := by
  unfold fitEndDownMsg
  apply strHasSubApL
  apply strHasSubApL
  apply strHasSubApL
  apply strHasSubApL
  apply strHasSubApR
  decide

/-- Membership in a conditional singleton collapses to the list. -/
theorem memIteNil {α : Type} {c : Prop} [Decidable c] {e : α} {l : List α}
    (h : e ∈ if c then l else []) : e ∈ l := by
  split at h
  · exact h
  · simp at h

/-- Every message the grid validator emits contains "outside". -/
theorem fitClueErrorsOutside (clue : Clue) (dims : Dimensions) :
    ∀ e ∈ fitClueErrors clue dims, strHasSub e "outside" = true := by
  intro e he
  unfold fitClueErrors at he
  simp only [List.mem_append] at he
  rcases he with ((h | h) | h) | h <;>
    have h2 := memIteNil h <;> simp only [List.mem_singleton] at h2 <;> subst h2
  · exact fitStartAcrossMsgOutside clue dims
  · exact fitStartDownMsgOutside clue dims
  · exact fitEndAcrossMsgOutside clue dims _
  · exact fitEndDownMsgOutside clue dims _

/-- Claim C8 (amended): with both dimensions and the clue's answer length
defined, the grid validator emits no error exactly when the start
coordinates and both directional extents lie within the grid; otherwise it
emits one error per violated check (up to four, not exactly one), each
containing "outside". -/
theorem grid_errors_amended (clue : Clue) (dims : Dimensions) (da db : Nat)
    (L : Int) (h1 : dims.across = some da) (h2 : dims.down = some db)
    (h3 : clue.answer.length = some L) :
    (fitClueErrors clue dims = [] ↔
      (clue.coords.across ≤ da ∧ clue.coords.down ≤ db ∧
       (clue.coords.across : Int) +
         (if clue.direction = "across" then L else 0) ≤ (da : Int) ∧
       (clue.coords.down : Int) +
         (if clue.direction = "down" then L else 0) ≤ (db : Int))) ∧
    (fitClueErrors clue dims).length =
      ((if da < clue.coords.across then 1 else 0) +
       (if db < clue.coords.down then 1 else 0) +
       (if (da : Int) < (clue.coords.across : Int) +
          (if clue.direction = "across" then L else 0) then 1 else 0) +
       (if (db : Int) < (clue.coords.down : Int) +
          (if clue.direction = "down" then L else 0) then 1 else 0)) ∧
    (∀ e ∈ fitClueErrors clue dims, strHasSub e "outside" = true) := by
  refine ⟨?_, ?_, fitClueErrorsOutside clue dims⟩ <;>
  · unfold fitClueErrors
    rw [h1, h2, h3]
    have hA : jsAddNatOpt clue.coords.across
        (if clue.direction = "across" then some L else some 0) =
        some ((clue.coords.across : Int) +
          (if clue.direction = "across" then L else 0)) := by
      by_cases hd : clue.direction = "across" <;> simp [jsAddNatOpt, hd]
    have hB : jsAddNatOpt clue.coords.down
        (if clue.direction = "down" then some L else some 0) =
        some ((clue.coords.down : Int) +
          (if clue.direction = "down" then L else 0)) := by
      by_cases hd : clue.direction = "down" <;> simp [jsAddNatOpt, hd]
    rw [hA, hB]
    simp only [natGtOpt, optGtOptNat]
    by_cases c1 : da < clue.coords.across <;>
      by_cases c2 : db < clue.coords.down <;>
        by_cases c3 : (da : Int) < (clue.coords.across : Int) +
          (if clue.direction = "across" then L else 0) <;>
          by_cases c4 : (db : Int) < (clue.coords.down : Int) +
            (if clue.direction = "down" then L else 0) <;>
            simp [c1, c2, c3, c4] <;> omega

/-- An across clue comfortably inside the 10 by 10 grid. -/
def c8OkClue : Clue :=
  { id := "1", direction := "across", coords := { across := 3, down := 2 },
    raw := stubRaw "1", answer := { parts := [c8Part], length := some 5 } }

/-- Witness for the amended C8: a clue whose start and extents are within
the grid draws no grid error. -/
theorem grid_errors_amended_witness : fitClueErrors c8OkClue dims1010 = [] :=
  (grid_errors_amended c8OkClue dims1010 10 10 5 rfl rfl rfl).1.mpr (by decide)

/-! ## Claim C1: length reconciliation -/

/-- Total length of a part sequence, as an integer. -/
def sumLen (ps : List APart) : Int := (((ps.map (·.len)).sum : Nat) : Int)

/-- Part-length sums are non-negative. -/
theorem sumLenNonneg (ps : List APart) : 0 ≤ sumLen ps := by
  unfold sumLen; omega

/-- Part-length sums add over concatenation. -/
theorem sumLenApp (a b : List APart) : sumLen (a ++ b) = sumLen a + sumLen b := by
  unfold sumLen
  rw [List.map_append, List.sum_append]
  omega

/-- Part-length sums ignore order. -/
theorem sumLenRev (a : List APart) : sumLen a.reverse = sumLen a := by
  unfold sumLen
  rw [List.map_reverse, List.sum_reverse]

/-- Part-length sum of a cons. -/
theorem sumLenCons (p : APart) (ps : List APart) :
    sumLen (p :: ps) = (p.len : Int) + sumLen ps := by
  unfold sumLen
  rw [List.map_cons, List.sum_cons]
  omega

/-- Association lookup over a replace-at-key map. -/
theorem assocGetReplace {α : Type} (k q : String) (v : α) :
    ∀ m : List (String × α),
      assocGet (m.map fun p => if p.1 = k then (k, v) else p) q =
        if q = k then (assocGet m k).map fun _ => v else assocGet m q
  | [] => by by_cases hq : q = k <;> simp [assocGet, hq]
  | (k0, v0) :: rest => by
    have ih := assocGetReplace k q v rest
    simp only [List.map_cons]
    by_cases hk0 : k0 = k
    · rw [if_pos hk0]
      simp only [assocGet]
      by_cases hq : q = k
      · rw [if_pos hq.symm, if_pos hq, if_pos hk0]
        rfl
      · rw [if_neg (fun h : k = q => hq h.symm), ih, if_neg hq, if_neg hq,
          if_neg (fun h : k0 = q => hq (h.symm.trans hk0))]
    · rw [if_neg hk0]
      simp only [assocGet]
      by_cases hq0 : k0 = q
      · rw [if_pos hq0, if_pos hq0,
          if_neg (show ¬ q = k from fun h => hk0 (hq0.trans h))]
      · rw [if_neg hq0, ih, if_neg hq0]
        by_cases hq : q = k
        · rw [if_pos hq, if_pos hq, if_neg hk0]
        · rw [if_neg hq, if_neg hq]

/-- A positive membership test yields a lookup hit. -/
theorem anyAssocSome {α : Type} :
    ∀ (m : List (String × α)) (k : String),
      m.any (fun p => p.1 = k) = true → ∃ w, assocGet m k = some w
  | [], k, h => by simp at h
  | (k0, v0) :: rest, k, h => by
    by_cases hk0 : k0 = k
    · exact ⟨v0, by simp [assocGet, hk0]⟩
    · rw [List.any_cons] at h
      simp only [hk0, decide_eq_true_eq, Bool.false_or] at h
      obtain ⟨w, hw⟩ := anyAssocSome rest k (by simpa using h)
      exact ⟨w, by simp [assocGet, hk0, hw]⟩

/-- Association lookup over a numeric-position insertion. -/
theorem assocGetInsNum {α : Type} (k : String) (v : α) :
    ∀ (m : List (String × α)) (q : String),
      assocGet (objInsNum m k v) q = if q = k then some v else assocGet m q
  | [], q => by
    by_cases hq : q = k
    · subst hq
      simp [objInsNum, assocGet]
    · simp [objInsNum, assocGet, hq, show ¬ k = q from fun h => hq h.symm]
  | (k0, v0) :: rest, q => by
    have ih := assocGetInsNum k v rest q
    unfold objInsNum
    by_cases hcond :
        (isArrIdxKey k0 && decide (natOfDigits k0 < natOfDigits k)) = true
    · rw [if_pos hcond]
      by_cases hq0 : k0 = q
      · subst hq0
        have hqk : ¬ k0 = k := by
          intro h
          subst h
          simp at hcond
        simp [assocGet, hqk]
      · simp [assocGet, hq0, ih]
    · rw [if_neg hcond]
      by_cases hq : q = k
      · subst hq
        simp [assocGet]
      · simp [assocGet, hq, show ¬ k = q from fun h => hq h.symm]

/-- Association lookup over an append of a fresh key. -/
theorem assocGetAppendOne {α : Type} (k : String) (v : α) :
    ∀ (m : List (String × α)) (q : String),
      m.any (fun p => p.1 = k) = false →
      assocGet (m ++ [(k, v)]) q = if q = k then some v else assocGet m q
  | [], q, _ => by
    by_cases hq : q = k
    · subst hq
      simp [assocGet]
    · simp [assocGet, hq, show ¬ k = q from fun h => hq h.symm]
  | (k0, v0) :: rest, q, h => by
    rw [List.any_cons] at h
    have hk0 : ¬ k0 = k := by
      intro he
      simp [he] at h
    have hrest : rest.any (fun p => p.1 = k) = false := by
      rcases Bool.or_eq_false_iff.mp h with ⟨-, h2⟩
      exact h2
    have ih := assocGetAppendOne k v rest q hrest
    by_cases hq0 : k0 = q
    · subst hq0
      simp [assocGet, hk0]
    · by_cases hq : q = k
      · subst hq
        simp [assocGet, hq0, hk0, ih]
      · simp [assocGet, hq0, hq, ih]

/-- Association lookup over a JS property write. -/
theorem assocGetObjSet {α : Type} (m : List (String × α)) (k : String)
    (v : α) (q : String) :
    assocGet (objSet m k v) q = if q = k then some v else assocGet m q := by
  unfold objSet
  by_cases hany : m.any (fun p => p.1 = k) = true
  · rw [if_pos hany, assocGetReplace]
    by_cases hq : q = k
    · rw [if_pos hq, if_pos hq]
      obtain ⟨w, hw⟩ := anyAssocSome m k hany
      rw [hw]
      rfl
    · rw [if_neg hq, if_neg hq]
  · rw [if_neg hany]
    have hf : m.any (fun p => p.1 = k) = false := by
      revert hany
      cases m.any fun p => p.1 = k <;> simp
    by_cases harr : isArrIdxKey k = true
    · rw [if_pos harr, assocGetInsNum]
    · rw [if_neg harr, assocGetAppendOne k v m q hf]

/-- The empty pair has no direction keys. -/
theorem pairGetEmpty (q : String) : pairGet {} q = none := by
  unfold pairGet
  by_cases h1 : q = "across" <;> by_cases h2 : q = "down" <;> simp [h1, h2]

/-- Reading a directional slot after writing one (for a real direction). -/
theorem pairGetSet (p : CluePair) (d : String) (c : Clue) (q : String)
    (hd : d = "across" ∨ d = "down") :
    pairGet (pairSet p d c) q = if q = d then some c else pairGet p q := by
  rcases hd with h | h <;> subst h <;> unfold pairGet pairSet <;>
    by_cases h1 : q = "across" <;> by_cases h2 : q = "down" <;>
      simp_all

/-- Reading the clue map after a clue write (for a real direction). -/
theorem lookupStore (m : CluesMap) (key : String × String) (c : Clue)
    (q : String × String) (hd : key.2 = "across" ∨ key.2 = "down") :
    lookupClue (storeClue m key c) q =
      if q = key then some c else lookupClue m q := by
  obtain ⟨k1, k2⟩ := key
  obtain ⟨q1, q2⟩ := q
  simp only at hd
  unfold lookupClue storeClue mapGet
  rw [assocGetObjSet]
  by_cases h1 : q1 = k1
  · subst h1
    rw [if_pos rfl, Option.some_bind, pairGetSet _ _ _ _ hd]
    by_cases hq2 : q2 = k2
    · subst hq2
      rw [if_pos rfl, if_pos rfl]
    · rw [if_neg hq2, if_neg (by simp [hq2] : ¬ (q1, q2) = (q1, k2))]
      cases hget : assocGet m q1 with
      | none => simp [pairGetEmpty]
      | some p => simp
  · rw [if_neg h1, if_neg (by simp [h1] : ¬ (q1, q2) = (k1, k2))]

/-- What a successful pop loop did: it split the reversed parts into a
popped chunk and a remainder, tagged the popped parts with the owned
clue, and deducted the popped total from both counters, ending with a
non-positive remaining need. -/
theorem popSpec (ref : String × String) :
    ∀ (rev : List APart) (need remLen : Int) (acc : List APart)
      (out : List APart × Option Int × Option Int × List APart),
      popLoop ref rev (some need) (some remLen) acc = some out →
      ∃ qs : List APart,
        rev = qs ++ out.1 ∧
        out.2.2.2 = (qs.map fun p => { p with clueRef := some ref }).reverse ++ acc ∧
        out.2.1 = some (need - sumLen qs) ∧
        out.2.2.1 = some (remLen - sumLen qs) ∧
        jsGtZero out.2.1 = false
  | [], need, remLen, acc, out, h => by
    unfold popLoop at h
    split at h
    · exact Option.noConfusion h
    next hg =>
      refine ⟨[], ?_, ?_, ?_, ?_, ?_⟩ <;>
        simp only [← Option.some.inj h, sumLen, List.map_nil, List.sum_nil,
          List.nil_append, List.reverse_nil, Int.ofNat_zero]
      · rw [Int.sub_zero]
      · rw [Int.sub_zero]
      · revert hg
        cases jsGtZero (some need) <;> simp
  | p :: rest, need, remLen, acc, out, h => by
    unfold popLoop at h
    split at h
    next hg =>
      simp only [optSubNat, Option.map_some'] at h
      obtain ⟨qs, h1, h2, h3, h4, h5⟩ :=
        popSpec ref rest (need - (p.len : Int)) (remLen - (p.len : Int))
          ({ p with clueRef := some ref } :: acc) out h
      refine ⟨p :: qs, ?_, ?_, ?_, ?_, h5⟩
      · rw [List.cons_append, ← h1]
      · rw [h2, List.map_cons, List.reverse_cons, List.append_assoc,
          List.singleton_append]
      · rw [h3, sumLenCons]
        congr 1
        ring
      · rw [h4, sumLenCons]
        congr 1
        ring
    next hg =>
      refine ⟨[], ?_, ?_, ?_, ?_, ?_⟩ <;>
        simp only [← Option.some.inj h, sumLen, List.map_nil, List.sum_nil,
          List.nil_append, List.reverse_nil]
      · simp
      · simp
      · revert hg
        cases jsGtZero (some need) <;> simp

/-- The reconciliation loop only ever appends to the error list. -/
theorem reconErrsGrow (ownerClue : Clue) :
    ∀ (ownsRev : List (String × String)) (clues : CluesMap)
      (revParts : List APart) (remLen : Option Int)
      (assigns : List ((String × String) × List APart)) (errs : List String)
      (out : CluesMap × List APart × Option Int ×
             List ((String × String) × List APart) × List String),
      reconOwns ownerClue clues ownsRev revParts remLen assigns errs =
        some out →
      ∃ tail, out.2.2.2.2 = errs ++ tail
  | [], clues, revParts, remLen, assigns, errs, out, h => by
    unfold reconOwns at h
    exact ⟨[], by rw [← Option.some.inj h]; simp⟩
  | o :: rest, clues, revParts, remLen, assigns, errs, out, h => by
    unfold reconOwns at h
    split at h
    · exact reconErrsGrow ownerClue rest clues revParts remLen assigns errs
        out h
    · split at h
      · exact Option.noConfusion h
      next ownedClue heq =>
        split at h
        · exact Option.noConfusion h
        next obt hbt =>
          split at h
          · exact Option.noConfusion h
          next r hpop =>
            dsimp only at h
            split at h
            · obtain ⟨tail, ht⟩ :=
                reconErrsGrow ownerClue rest _ _ _ _ _ out h
              exact ⟨[cannotEncompassMsg ownerClue ownedClue] ++ tail,
                by rw [ht, List.append_assoc]⟩
            · exact reconErrsGrow ownerClue rest _ _ _ _ _ out h

/-- What a successful (error-free) reconciliation loop did: it cut the
reversed part sequence into one chunk per owned clue (in processing
order) plus a remainder, each chunk totalling exactly the owned clue's
declared answer length; the remaining-length counter ends at the
remainder's total; and no clue's answer record was changed (the walk only
writes belongs-to part assignments). -/
theorem reconSpec (ownerClue : Clue) (needOf : String × String → Int) :
    ∀ (ownsRev : List (String × String)) (clues : CluesMap)
      (revParts : List APart)
      (assigns : List ((String × String) × List APart)) (errs : List String)
      (out : CluesMap × List APart × Option Int ×
             List ((String × String) × List APart) × List String),
      (∀ o ∈ ownsRev, (o.2 = "across" ∨ o.2 = "down") ∧
        ∃ c, lookupClue clues o = some c ∧ c.belongsTo.isSome = true ∧
          c.answer.length = some (needOf o)) →
      reconOwns ownerClue clues ownsRev revParts (some (sumLen revParts))
        assigns errs = some out →
      out.2.2.2.2 = errs →
      ∃ qss : List (List APart),
        qss.length = ownsRev.length ∧
        revParts = qss.flatten ++ out.2.1 ∧
        out.2.2.1 = some (sumLen out.2.1) ∧
        (∀ pr ∈ qss.zip ownsRev, sumLen pr.1 = needOf pr.2) ∧
        (∀ q, (lookupClue out.1 q).map (·.answer) =
              (lookupClue clues q).map (·.answer))
  | [], clues, revParts, assigns, errs, out, hv, h, hsucc => by
    unfold reconOwns at h
    obtain rfl := (Option.some.inj h).symm
    exact ⟨[], rfl, by simp, rfl, by simp, fun q => rfl⟩
  | o :: rest, clues, revParts, assigns, errs, out, hv, h, hsucc => by
    obtain ⟨hdir, c, hc, hbt, hlen⟩ := hv o (List.mem_cons_self o rest)
    have hvrest := fun o' ho' => hv o' (List.mem_cons_of_mem o ho')
    unfold reconOwns at h
    rw [if_neg (show ¬ (some (sumLen revParts) : Option Int) = some (-1) by
      intro hx
      have h1 := Option.some.inj hx
      have h2 := sumLenNonneg revParts
      omega)] at h
    split at h
    · exact Option.noConfusion h
    next ownedClue heq =>
      have hoc : ownedClue = c := by
        rw [heq] at hc
        exact Option.some.inj hc
      subst hoc
      split at h
      · exact Option.noConfusion h
      next obt hbt2 =>
        split at h
        · exact Option.noConfusion h
        next r hpop =>
          rw [hlen] at hpop
          obtain ⟨qs, hq1, hq2, hq3, hq4, hq5⟩ :=
            popSpec (ownedClue.id, ownedClue.direction) revParts (needOf o)
              (sumLen revParts) [] r hpop
          dsimp only at h
          split at h
          next hne =>
            obtain ⟨tail, ht⟩ := reconErrsGrow ownerClue rest _ _ _ _ _ out h
            rw [hsucc] at ht
            have hlenc := congrArg List.length ht
            simp at hlenc
          next hne =>
            have h0 : r.2.1 = some 0 := not_not.mp hne
            have hqs : sumLen qs = needOf o := by
              rw [h0] at hq3
              have h1 := Option.some.inj hq3
              omega
            have hsum : r.2.2.1 = some (sumLen r.1) := by
              rw [hq4, hq1, sumLenApp]
              congr 1
              ring
            rw [hsum] at h
            obtain ⟨qss, ih1, ih2, ih3, ih4, ih5⟩ :=
              reconSpec ownerClue needOf rest _ r.1
                (assigns ++ [(o, r.2.2.2)]) errs out
                (by
                  intro o' ho'
                  obtain ⟨hdir', c', hc', hbt', hlen'⟩ := hvrest o' ho'
                  refine ⟨hdir', ?_⟩
                  rw [lookupStore clues o _ o' hdir]
                  by_cases heo : o' = o
                  · subst heo
                    rw [if_pos rfl]
                    have hcc : c' = ownedClue := by
                      rw [hc'] at hc
                      exact Option.some.inj hc
                    subst hcc
                    exact ⟨_, rfl, by simp, hlen'⟩
                  · rw [if_neg heo]
                    exact ⟨c', hc', hbt', hlen'⟩)
                h hsucc
            refine ⟨qs :: qss, by simp [ih1], ?_, ih3, ?_, ?_⟩
            · rw [List.flatten_cons, List.append_assoc, ← ih2, ← hq1]
            · intro pr hpr
              rw [List.zip_cons_cons, List.mem_cons] at hpr
              rcases hpr with hpr | hpr
              · rw [hpr]
                exact hqs
              · exact ih4 pr hpr
            · intro q
              rw [ih5 q, lookupStore clues o _ q hdir]
              by_cases heo : q = o
              · subst heo
                rw [if_pos rfl, hc]
                rfl
              · rw [if_neg heo]

/-- Zipping commutes with reversing both lists of equal length. -/
theorem zipRevRev {α β : Type} :
    ∀ (a : List α) (b : List β), a.length = b.length →
      a.reverse.zip b.reverse = (a.zip b).reverse
  | [], [], _ => rfl
  | [], b :: bs, h => by simp at h
  | a :: as, [], h => by simp at h
  | a :: as, b :: bs, h => by
    simp only [List.length_cons] at h
    have h' : as.length = bs.length := by omega
    simp only [List.reverse_cons, List.zip_cons_cons]
    rw [List.zip_append (by simp [h']), zipRevRev as bs h']
    simp

/-- Claim C1: for an owner clue that survives the earlier stages (its
answer length is its parts total, every owned clue exists with a
belongs-to and a declared length) and whose reconciliation succeeds
(no error appended), the stage records the pre-redistribution total in
`answer.lengthOwned`, splits the part sequence into leading remaining
parts followed by one whole-parts segment per owned clue — the
last-declared owned clue's segment at the tail, since the owns list is
walked in reverse popping from the tail — with each segment totalling
exactly the owned clue's declared answer length, and sets the owner's
`answer.length` to the total of the remaining leading parts (which are
non-empty). -/
theorem owner_reconciliation_success
    (clues : CluesMap) (key : String × String) (clue : Clue)
    (needOf : String × String → Int)
    (hkey : lookupClue clues key = some clue)
    (hkdir : key.2 = "across" ∨ key.2 = "down")
    (howns : clue.owns ≠ [])
    (hlen : clue.answer.length = some (sumLen clue.answer.parts))
    (hv : ∀ o ∈ clue.owns, (o.2 = "across" ∨ o.2 = "down") ∧
      ∃ c, lookupClue clues o = some c ∧ c.belongsTo.isSome = true ∧
        c.answer.length = some (needOf o))
    (out : CluesMap × List String)
    (hrun : ownsStageClue clues [] key = some out)
    (hsucc : out.2 = []) :
    ∃ (ownerAfter : Clue) (remaining : List APart) (segs : List (List APart)),
      lookupClue out.1 key = some ownerAfter ∧
      ownerAfter.answer.lengthOwned = some (sumLen clue.answer.parts) ∧
      ownerAfter.answer.length = some (sumLen remaining) ∧
      remaining ≠ [] ∧
      clue.answer.parts = remaining ++ segs.flatten ∧
      segs.length = clue.owns.length ∧
      (∀ pr ∈ segs.zip clue.owns, sumLen pr.1 = needOf pr.2) := by
  unfold ownsStageClue at hrun
  rw [hkey] at hrun
  dsimp only at hrun
  rw [if_pos (List.length_pos.mpr howns)] at hrun
  split at hrun
  · exact Option.noConfusion hrun
  next r hrec =>
    rw [hlen, ← sumLenRev] at hrec
    split at hrun
    · exact Option.noConfusion hrun
    next ownerNow hlook1 =>
      split at hrun
      next h1 =>
        obtain rfl := Option.some.inj hrun
        simp at hsucc
      next h1 =>
        split at hrun
        next h2 =>
          obtain rfl := Option.some.inj hrun
          simp at hsucc
        next h2 =>
          split at hrun
          next h3 =>
            obtain rfl := Option.some.inj hrun
            simp at hsucc
          next h3 =>
            obtain rfl := Option.some.inj hrun
            have herrs : r.2.2.2.2 = [] := by simpa using hsucc
            have hv0 : ∀ o ∈ clue.owns.reverse,
                (o.2 = "across" ∨ o.2 = "down") ∧
                ∃ c, lookupClue (storeClue clues key
                  { clue with answer :=
                    { parts := clue.answer.parts,
                      length := some (sumLen clue.answer.parts.reverse),
                      lengthOwned := some (sumLen clue.answer.parts.reverse) } })
                  o = some c ∧
                  c.belongsTo.isSome = true ∧
                  c.answer.length = some (needOf o) := by
              intro o ho
              rw [List.mem_reverse] at ho
              obtain ⟨hdir', c', hc', hbt', hlen'⟩ := hv o ho
              refine ⟨hdir', ?_⟩
              rw [lookupStore clues key _ o hkdir]
              by_cases heo : o = key
              · subst heo
                rw [if_pos rfl]
                have hcc : c' = clue := by
                  rw [hc'] at hkey
                  exact Option.some.inj hkey
                subst hcc
                refine ⟨_, rfl, hbt', ?_⟩
                dsimp only
                rw [sumLenRev, ← hlen]
                exact hlen'
              · rw [if_neg heo]
                exact ⟨c', hc', hbt', hlen'⟩
            obtain ⟨qss, ih1, ih2, ih3, ih4, ih5⟩ :=
              reconSpec clue needOf clue.owns.reverse _
                clue.answer.parts.reverse [] [] r hv0 hrec herrs
            have hOwnerNowAnswer : ownerNow.answer =
                { parts := clue.answer.parts,
                  length := some (sumLen clue.answer.parts.reverse),
                  lengthOwned := some (sumLen clue.answer.parts.reverse) } := by
              have hp := ih5 key
              rw [hlook1, lookupStore clues key _ key hkdir, if_pos rfl] at hp
              exact Option.some.inj hp
            refine ⟨{ ownerNow with answer :=
                { parts := r.2.1.reverse ++
                    (List.map (fun x => x.2) r.2.2.2.1.reverse).flatten,
                  length := r.2.2.1,
                  lengthOwned := ownerNow.answer.lengthOwned } },
              r.2.1.reverse, (qss.map List.reverse).reverse,
              ?_, ?_, ?_, ?_, ?_, ?_, ?_⟩
            · rw [lookupStore r.1 key _ key hkdir, if_pos rfl]
            · show ownerNow.answer.lengthOwned = some (sumLen clue.answer.parts)
              rw [hOwnerNowAnswer]
              show some (sumLen clue.answer.parts.reverse) =
                some (sumLen clue.answer.parts)
              rw [sumLenRev]
            · show r.2.2.1 = some (sumLen r.2.1.reverse)
              rw [ih3, sumLenRev]
            · intro hnil
              exact h3 (by rw [hnil]; rfl)
            · have hdec := congrArg List.reverse ih2
              rw [List.reverse_reverse, List.reverse_append,
                List.reverse_flatten] at hdec
              exact hdec
            · rw [List.length_reverse, List.length_map, ih1,
                List.length_reverse]
            · intro pr hpr
              have hlen2 : (qss.map List.reverse).length =
                  (clue.owns.reverse).length := by
                rw [List.length_map, ih1]
              rw [show (qss.map List.reverse).reverse.zip clue.owns =
                (qss.map List.reverse).reverse.zip clue.owns.reverse.reverse from
                by rw [List.reverse_reverse]] at hpr
              rw [zipRevRev _ _ hlen2, List.mem_reverse,
                List.zip_map_left, List.mem_map] at hpr
              obtain ⟨⟨qs', o'⟩, hmem, hpr2⟩ := hpr
              rw [← hpr2]
              show sumLen qs'.reverse = needOf o'
              rw [sumLenRev]
              exact ih4 (qs', o') hmem

/-- A hand-built answer part carrying only the fields reconciliation
reads: token, separator, sequence and numeric length. -/
def c1part (w : String) (sep : Option Char) (seq n : Nat) : APart :=
  { wordOrNumber := w, separator := sep, sequence := seq, len := n,
    placeholder := true }

/-- The (5,4,3) owner clue: combined answer of three numeric parts with
total 12, owning clues 2 down and 3 down. -/
def c1owner : Clue :=
  { id := "1", direction := "across", coords := { across := 1, down := 1 },
    raw := { idsText := "1,2 down,3 down", bodyText := "An owning clue",
             answerText := "5,4,3",
             clueText := "- (1,1) 1,2 down,3 down. An owning clue (5,4,3)",
             clueTextSequenceId := 0 },
    owns := [("2", "down"), ("3", "down")],
    answer := { parts := [c1part "5" none 0 5, c1part "4" (some ',') 1 4,
                          c1part "3" (some ',') 2 3],
                length := some 12 } }

/-- An owned down clue with a declared answer length and a belongs-to
reference to 1 across. -/
def c1owned (idv : String) (x : Nat) (n : Int) : Clue :=
  { id := idv, direction := "down", coords := { across := x, down := 1 },
    raw := stubRaw idv,
    belongsTo := some { id := "1", direction := "across" },
    answer := { length := some n } }

/-- The clue map for the (5,4,3) example. -/
def c1map : CluesMap :=
  [("1", { across := some c1owner }),
   ("2", { down := some (c1owned "2" 3 4) }),
   ("3", { down := some (c1owned "3" 5 3) })]

/-- The declared answer length of each owned clue in the example. -/
def c1need (o : String × String) : Int := if o.1 = "2" then 4 else 3

/-- Witness: on the (5,4,3) example, reconciliation succeeds and the
theorem's conclusion holds; concretely the owner ends with
`answer.length = 5` and `answer.lengthOwned = 12`. -/
theorem owner_reconciliation_success_witness :
    (∃ out, ownsStageClue c1map [] ("1", "across") = some out ∧
      out.2 = [] ∧
      ∃ (ownerAfter : Clue) (remaining : List APart)
          (segs : List (List APart)),
        lookupClue out.1 ("1", "across") = some ownerAfter ∧
        ownerAfter.answer.lengthOwned = some (sumLen c1owner.answer.parts) ∧
        ownerAfter.answer.length = some (sumLen remaining) ∧
        remaining ≠ [] ∧
        c1owner.answer.parts = remaining ++ segs.flatten ∧
        segs.length = c1owner.owns.length ∧
        (∀ pr ∈ segs.zip c1owner.owns, sumLen pr.1 = c1need pr.2)) ∧
    (ownsStageClue c1map [] ("1", "across")).map
      (fun out => (lookupClue out.1 ("1", "across")).map
        (fun c => (c.answer.length, c.answer.lengthOwned))) =
      some (some (some 5, some 12)) := by
  constructor
  · obtain ⟨out, hout⟩ := Option.isSome_iff_exists.mp
      (show (ownsStageClue c1map [] ("1", "across")).isSome = true by decide)
    have h2 : (ownsStageClue c1map [] ("1", "across")).map (fun p => p.2) =
        some [] := by decide
    rw [hout, Option.map_some'] at h2
    have hsucc : out.2 = [] := Option.some.inj h2
    refine ⟨out, hout, hsucc, ?_⟩
    refine owner_reconciliation_success c1map ("1", "across") c1owner c1need
      (by decide) (Or.inl rfl) (by decide) (by decide) ?_ out hout hsucc
    intro o ho
    rw [show c1owner.owns = [("2", "down"), ("3", "down")] from rfl] at ho
    simp only [List.mem_cons, List.not_mem_nil, or_false] at ho
    rcases ho with rfl | rfl
    · exact ⟨Or.inr rfl, c1owned "2" 3 4, by decide, by decide, by decide⟩
    · exact ⟨Or.inr rfl, c1owned "3" 5 3, by decide, by decide, by decide⟩
  · decide
